import Mathlib

/-!
# Verification of the x86-64 fault-emulation core (src/Utilities/Thread.cpp)

A shallow embedding of the instruction decoder, register/flag context
accessors, access-size computation and the fault handler's MMIO / RAM
mutation paths, translated from `src/Utilities/Thread.cpp`, together with
theorems settling the frozen claims C1..C10 about the natural-language
specification.

Machine integers are modelled as `Nat` with explicit `% 2^w` (or masks)
where the C code's fixed-width types wrap.  Byte streams are `List Nat`
(each element a byte value); the C code reads raw memory, so a decode that
would run past the supplied list is modelled as failure.
-/

namespace ThreadCpp

/-! ## Register and operand codes (`enum x64_reg_t`)

The enum values are reproduced verbatim: general registers 0..15 (shared
numerically with XMM0..15), legacy 8-bit registers `AL..BH` at 16..23,
`NOT_SET`/immediate markers at 24..27, condition-code pseudo-registers at
0x90..0x9f, and `ECX = CL = 17`. -/

def X64R_RAX : ℕ := 0
def X64R_RCX : ℕ := 1
def X64R_RSI : ℕ := 6
def X64R_RDI : ℕ := 7
def X64R_AL : ℕ := 16
def X64_NOT_SET : ℕ := 24
def X64_IMM8 : ℕ := 25
def X64_IMM16 : ℕ := 26
def X64_IMM32 : ℕ := 27
def X64_BIT_O : ℕ := 0x90
def X64R_ECX : ℕ := 17

/-- Operation kinds (`enum x64_op_t`). -/
inductive X64Op where
  | NONE | LOAD | LOAD_BE | LOAD_CMP | LOAD_TEST | STORE | STORE_BE
  | MOVS | STOS | XCHG | CMPXCHG
  | AND | OR | XOR | INC | DEC | ADD | ADC | SUB | SBB
deriving DecidableEq, Repr

/-! ## Prefix scanning (`decode_x64_reg_op`, prefix loop) -/

/-- Prefix-scan state accumulated by the decoder's prefix loop:
`rex` and `pg2` keep the byte value of the first REX / group-2 prefix seen
(later ones are only logged), the booleans are sticky presence flags. -/
structure PfxState where
  rex : ℕ
  pg2 : ℕ
  oso : Bool
  lockp : Bool
  repne : Bool
  repe : Bool
deriving DecidableEq, Repr

/-- Initial prefix state. -/
def pfx0 : PfxState := ⟨0, 0, false, false, false, false⟩

/-- Is `b` a REX prefix byte (`(prefix & 0xf0) == 0x40`)? -/
def isREX (b : ℕ) : Prop := b &&& 0xf0 = 0x40

instance (b : ℕ) : Decidable (isREX b) := by unfold isREX; infer_instance

/-- The decoder's prefix loop.  Returns the accumulated state, the number
of prefix bytes consumed, the opcode byte and the remaining stream; `none`
when a `0x67` address-size-override prefix aborts decoding, or when the
stream is exhausted (the C code would read unspecified memory there). -/
def pfxScan : List ℕ → PfxState → ℕ → Option (PfxState × ℕ × ℕ × List ℕ)
  | [], _, _ => none
  | b :: rest, st, n =>
    if b = 0xf0 then pfxScan rest { st with lockp := true } (n + 1)
    else if b = 0xf2 then pfxScan rest { st with repne := true } (n + 1)
    else if b = 0xf3 then pfxScan rest { st with repe := true } (n + 1)
    else if b = 0x2e ∨ b = 0x36 ∨ b = 0x3e ∨ b = 0x26 ∨ b = 0x64 ∨ b = 0x65 then
      pfxScan rest { st with pg2 := if st.pg2 = 0 then b else st.pg2 } (n + 1)
    else if b = 0x66 then pfxScan rest { st with oso := true } (n + 1)
    else if b = 0x67 then none
    else if b &&& 0xf0 = 0x40 then
      pfxScan rest { st with rex := if st.rex = 0 then b else st.rex } (n + 1)
    else some (st, n, b, rest)

/-! ## ModRM helpers -/

/-- `get_modRM_reg`: the ModRM reg field, extended by REX.R, as a general
register code (`+ X64R_RAX`, which is 0). -/
def get_modRM_reg (modrm rex : ℕ) : ℕ :=
  ((modrm &&& 0x38) >>> 3 ||| (if rex &&& 4 ≠ 0 then 8 else 0)) + X64R_RAX

/-- `get_modRM_reg_xmm`: same field as an XMM register code (`+ X64R_XMM0`,
which is also 0). -/
def get_modRM_reg_xmm (modrm rex : ℕ) : ℕ :=
  ((modrm &&& 0x38) >>> 3 ||| (if rex &&& 4 ≠ 0 then 8 else 0)) + 0

/-- `get_modRM_reg_lh`: the ModRM reg field as a legacy 8-bit register code
(`+ X64R_AL`). -/
def get_modRM_reg_lh (modrm : ℕ) : ℕ :=
  ((modrm &&& 0x38) >>> 3) + X64R_AL

/-- `get_op_size`: `rex.w ? 8 : (oso ? 2 : 4)`. -/
def get_op_size (rex : ℕ) (oso : Bool) : ℕ :=
  if rex &&& 8 ≠ 0 then 8 else if oso then 2 else 4

/-- `get_modRM_size`: bytes occupied by ModRM + SIB + displacement. -/
def get_modRM_size (modrm : ℕ) : ℕ :=
  match modrm >>> 6 with
  | 0 => if modrm &&& 0x07 = 4 then 2 else 1
  | 1 => if modrm &&& 0x07 = 4 then 3 else 2
  | 2 => if modrm &&& 0x07 = 4 then 6 else 5
  | _ => 1

/-! ## The decoder proper -/

/-- Result of `decode_x64_reg_op`: `(out_op, out_reg, out_size, out_length)`. -/
structure Decoded where
  op : X64Op
  reg : ℕ
  size : ℕ
  length : ℕ
deriving DecidableEq, Repr

/-- The failure result `(X64OP_NONE, X64_NOT_SET, 0, 0)`. -/
def decodeFail : Decoded := ⟨X64Op.NONE, X64_NOT_SET, 0, 0⟩

/-- Arithmetic-group table for opcode `0x80` (`case 0` is commented out in
the source, so ModRM reg field 0 falls to the default `LOAD_CMP`). -/
def arith80 (modrm : ℕ) : X64Op :=
  match (modrm &&& 0x38) >>> 3 with
  | 1 => X64Op.OR
  | 2 => X64Op.ADC
  | 3 => X64Op.SBB
  | 4 => X64Op.AND
  | 5 => X64Op.SUB
  | 6 => X64Op.XOR
  | _ => X64Op.LOAD_CMP

/-- Arithmetic-group table for opcodes `0x81`/`0x83` (reg field 0 is ADD). -/
def arith81 (modrm : ℕ) : X64Op :=
  match (modrm &&& 0x38) >>> 3 with
  | 0 => X64Op.ADD
  | 1 => X64Op.OR
  | 2 => X64Op.ADC
  | 3 => X64Op.SBB
  | 4 => X64Op.AND
  | 5 => X64Op.SUB
  | 6 => X64Op.XOR
  | _ => X64Op.LOAD_CMP

/-- The two-byte (`0x0F`) opcode map.  Returns lengths counted from the
`0x0F` byte exclusive (the second opcode byte, ModRM/SIB/displacement and
any further opcode byte); `decode_x64_reg_op` adds the prefix bytes and
the `0x0F` byte itself on top, giving the same totals the C code
accumulates in `out_length`.  `r1` is the stream after `0x0F`. -/
def decode0F (st : PfxState) (r1 : List ℕ) : Decoded :=
  if r1.getD 0 0 = 0x11 ∨ r1.getD 0 0 = 0x29 then
    if !st.repe && !st.repne then
      ⟨X64Op.STORE, get_modRM_reg_xmm (r1.getD 1 0) st.rex, 16,
       1 + get_modRM_size (r1.getD 1 0)⟩
    else decodeFail
  else if r1.getD 0 0 = 0x7f then
    if (st.repe && !st.oso) || (!st.repe && st.oso) then
      ⟨X64Op.STORE, get_modRM_reg_xmm (r1.getD 1 0) st.rex, 16,
       1 + get_modRM_size (r1.getD 1 0)⟩
    else decodeFail
  else if r1.getD 0 0 = 0xb0 then
    if !st.oso then
      ⟨X64Op.CMPXCHG,
       if st.rex &&& 8 ≠ 0 then get_modRM_reg (r1.getD 1 0) st.rex
       else get_modRM_reg_lh (r1.getD 1 0),
       1, 1 + get_modRM_size (r1.getD 1 0)⟩
    else decodeFail
  else if r1.getD 0 0 = 0xb1 then
    ⟨X64Op.CMPXCHG, get_modRM_reg (r1.getD 1 0) st.rex,
     get_op_size st.rex st.oso, 1 + get_modRM_size (r1.getD 1 0)⟩
  else if 0x90 ≤ r1.getD 0 0 ∧ r1.getD 0 0 ≤ 0x9f ∧ r1.getD 0 0 ≠ 0x99 then
    if !st.lockp then
      ⟨X64Op.STORE, X64_BIT_O + r1.getD 0 0 - 0x90, 1,
       1 + get_modRM_size (r1.getD 1 0)⟩
    else decodeFail
  else if r1.getD 0 0 = 0x38 then
    if (r1.getD 1 0 = 0xf0 ∨ r1.getD 1 0 = 0xf1) ∧ !st.repne then
      ⟨if r1.getD 1 0 = 0xf0 then X64Op.LOAD_BE else X64Op.STORE_BE,
       get_modRM_reg (r1.getD 2 0) st.rex, get_op_size st.rex st.oso,
       2 + get_modRM_size (r1.getD 2 0)⟩
    else decodeFail
  else decodeFail

/-- The VEX (`0xC4`/`0xC5`) branch.  Lengths are counted from the VEX lead
byte exclusive: the 1/2 remaining VEX bytes, the opcode byte and
ModRM/SIB/displacement.  `r1` is the stream after the lead byte `op1`. -/
def decodeVEX (st : PfxState) (op1 : ℕ) (r1 : List ℕ) : Decoded :=
  if (if op1 = 0xc5 then 1 else r1.getD 0 0 &&& 0x1f) = 1 then
    if (if op1 = 0xc5 then r1.getD 1 0 else r1.getD 2 0) = 0x11 ∨
       (if op1 = 0xc5 then r1.getD 1 0 else r1.getD 2 0) = 0x29 then
      if ¬((if op1 = 0xc5 then r1.getD 0 0 else r1.getD 1 0) &&& 0x3 = 0x2) ∧
         ¬((if op1 = 0xc5 then r1.getD 0 0 else r1.getD 1 0) &&& 0x3 = 0x3) then
        ⟨X64Op.STORE,
         get_modRM_reg_xmm (if op1 = 0xc5 then r1.getD 2 0 else r1.getD 3 0)
           ((st.rex ||| (if r1.getD 0 0 &&& 0x80 ≠ 0 then 0 else 4)) |||
            (if op1 = 0xc4 ∧ r1.getD 1 0 &&& 0x80 ≠ 0 then 8 else 0)),
         if (if op1 = 0xc5 then r1.getD 0 0 else r1.getD 1 0) &&& 0x4 ≠ 0
           then 32 else 16,
         (if op1 = 0xc5 then 2 else 3) +
           get_modRM_size (if op1 = 0xc5 then r1.getD 2 0 else r1.getD 3 0)⟩
      else decodeFail
    else if (if op1 = 0xc5 then r1.getD 1 0 else r1.getD 2 0) = 0x7f then
      if ((if op1 = 0xc5 then r1.getD 0 0 else r1.getD 1 0) &&& 0x3 = 0x2) ∨
         ((if op1 = 0xc5 then r1.getD 0 0 else r1.getD 1 0) &&& 0x3 = 0x1) then
        ⟨X64Op.STORE,
         get_modRM_reg_xmm (if op1 = 0xc5 then r1.getD 2 0 else r1.getD 3 0)
           ((st.rex ||| (if r1.getD 0 0 &&& 0x80 ≠ 0 then 0 else 4)) |||
            (if op1 = 0xc4 ∧ r1.getD 1 0 &&& 0x80 ≠ 0 then 8 else 0)),
         if (if op1 = 0xc5 then r1.getD 0 0 else r1.getD 1 0) &&& 0x4 ≠ 0
           then 32 else 16,
         (if op1 = 0xc5 then 2 else 3) +
           get_modRM_size (if op1 = 0xc5 then r1.getD 2 0 else r1.getD 3 0)⟩
      else decodeFail
    else decodeFail
  else decodeFail

/-- Opcode dispatch of `decode_x64_reg_op` after the prefix loop, with
lengths counted from the first opcode byte exclusive (ModRM/SIB/
displacement plus trailing immediate); `decode_x64_reg_op` adds the
number of prefix bytes plus one on top.  `r1` is the stream after `op1`. -/
def decodeBody (st : PfxState) (op1 : ℕ) (r1 : List ℕ) : Decoded :=
  if op1 = 0x0f then decode0F st r1
  else if op1 = 0x20 then
    if !st.oso then
      ⟨X64Op.AND,
       if st.rex &&& 8 ≠ 0 then get_modRM_reg (r1.getD 0 0) st.rex
       else get_modRM_reg_lh (r1.getD 0 0),
       1, get_modRM_size (r1.getD 0 0)⟩
    else decodeFail
  else if op1 = 0x21 then
    ⟨X64Op.AND, get_modRM_reg (r1.getD 0 0) st.rex, get_op_size st.rex st.oso,
     get_modRM_size (r1.getD 0 0)⟩
  else if op1 = 0x80 then
    ⟨arith80 (r1.getD 0 0), X64_IMM8, 1, get_modRM_size (r1.getD 0 0) + 1⟩
  else if op1 = 0x81 then
    ⟨arith81 (r1.getD 0 0), if st.oso then X64_IMM16 else X64_IMM32,
     get_op_size st.rex st.oso,
     get_modRM_size (r1.getD 0 0) + (if st.oso then 2 else 4)⟩
  else if op1 = 0x83 then
    ⟨arith81 (r1.getD 0 0), X64_IMM8, get_op_size st.rex st.oso,
     get_modRM_size (r1.getD 0 0) + 1⟩
  else if op1 = 0x86 then
    if !st.oso then
      ⟨X64Op.XCHG,
       if st.rex &&& 8 ≠ 0 then get_modRM_reg (r1.getD 0 0) st.rex
       else get_modRM_reg_lh (r1.getD 0 0),
       1, get_modRM_size (r1.getD 0 0)⟩
    else decodeFail
  else if op1 = 0x87 then
    ⟨X64Op.XCHG, get_modRM_reg (r1.getD 0 0) st.rex, get_op_size st.rex st.oso,
     get_modRM_size (r1.getD 0 0)⟩
  else if op1 = 0x88 then
    if !st.lockp && !st.oso then
      ⟨X64Op.STORE,
       if st.rex &&& 8 ≠ 0 then get_modRM_reg (r1.getD 0 0) st.rex
       else get_modRM_reg_lh (r1.getD 0 0),
       1, get_modRM_size (r1.getD 0 0)⟩
    else decodeFail
  else if op1 = 0x89 then
    if !st.lockp then
      ⟨X64Op.STORE, get_modRM_reg (r1.getD 0 0) st.rex,
       get_op_size st.rex st.oso, get_modRM_size (r1.getD 0 0)⟩
    else decodeFail
  else if op1 = 0x8a then
    if !st.lockp && !st.oso then
      ⟨X64Op.LOAD,
       if st.rex &&& 8 ≠ 0 then get_modRM_reg (r1.getD 0 0) st.rex
       else get_modRM_reg_lh (r1.getD 0 0),
       1, get_modRM_size (r1.getD 0 0)⟩
    else decodeFail
  else if op1 = 0x8b then
    if !st.lockp then
      ⟨X64Op.LOAD, get_modRM_reg (r1.getD 0 0) st.rex,
       get_op_size st.rex st.oso, get_modRM_size (r1.getD 0 0)⟩
    else decodeFail
  else if op1 = 0xa4 then
    if !st.oso && !st.lockp && !st.repe && decide (st.rex = 0) then
      ⟨X64Op.MOVS, X64_NOT_SET, 1, 0⟩
    else if !st.oso && !st.lockp && st.repe then
      ⟨X64Op.MOVS, if st.rex &&& 8 ≠ 0 then X64R_RCX else X64R_ECX, 1, 0⟩
    else decodeFail
  else if op1 = 0xaa then
    if !st.oso && !st.lockp && !st.repe && decide (st.rex = 0) then
      ⟨X64Op.STOS, X64_NOT_SET, 1, 0⟩
    else if !st.oso && !st.lockp && st.repe then
      ⟨X64Op.STOS, if st.rex &&& 8 ≠ 0 then X64R_RCX else X64R_ECX, 1, 0⟩
    else decodeFail
  else if op1 = 0xc4 ∨ op1 = 0xc5 then decodeVEX st op1 r1
  else if op1 = 0xc6 then
    if !st.lockp && !st.oso && decide (get_modRM_reg (r1.getD 0 0) 0 = 0) then
      ⟨X64Op.STORE, X64_IMM8, 1, get_modRM_size (r1.getD 0 0) + 1⟩
    else decodeFail
  else if op1 = 0xc7 then
    if !st.lockp && decide (get_modRM_reg (r1.getD 0 0) 0 = 0) then
      ⟨X64Op.STORE, if st.oso then X64_IMM16 else X64_IMM32,
       get_op_size st.rex st.oso,
       get_modRM_size (r1.getD 0 0) + (if st.oso then 2 else 4)⟩
    else decodeFail
  else if op1 = 0xf6 then
    ⟨if get_modRM_reg (r1.getD 0 0) 0 = 0 then X64Op.LOAD_TEST else X64Op.NONE,
     X64_IMM8, 1, get_modRM_size (r1.getD 0 0) + 1⟩
  else if op1 = 0xf7 then
    ⟨if get_modRM_reg (r1.getD 0 0) 0 = 0 then X64Op.LOAD_TEST else X64Op.NONE,
     if st.oso then X64_IMM16 else X64_IMM32,
     get_op_size st.rex st.oso,
     get_modRM_size (r1.getD 0 0) + (if st.oso then 2 else 4)⟩
  else decodeFail

/-- `decode_x64_reg_op`: full decode of one instruction from a byte stream.
The C code threads `out_length` through the prefix loop; here the
equivalent total is assembled at the end: the dispatch result's byte count
plus the prefixes plus the first opcode byte (except on failure, where the
C code resets `out_length` to 0). -/
def decode_x64_reg_op (code : List ℕ) : Decoded :=
  match pfxScan code pfx0 0 with
  | none => decodeFail
  | some (st, n, op1, r1) =>
    let d := decodeBody st op1 r1
    if d = decodeFail then decodeFail
    else ⟨d.op, d.reg, d.size, d.length + (n + 1)⟩

/-! ## Prefix classification -/

/-- The legacy/REX prefix bytes the prefix loop consumes (everything it
`continue`s on; `0x67` is excluded since it aborts). -/
def isPfxByte (b : ℕ) : Prop :=
  b = 0xf0 ∨ b = 0xf2 ∨ b = 0xf3 ∨
  b = 0x2e ∨ b = 0x36 ∨ b = 0x3e ∨ b = 0x26 ∨ b = 0x64 ∨ b = 0x65 ∨
  b = 0x66 ∨ b &&& 0xf0 = 0x40

instance (b : ℕ) : Decidable (isPfxByte b) := by unfold isPfxByte; infer_instance

/-- The enumerated set of first opcode bytes the decoder dispatches on
(the `case` labels of the outer `switch`). -/
def supportedOp1 (b : ℕ) : Prop :=
  b = 0x0f ∨ b = 0x20 ∨ b = 0x21 ∨ b = 0x80 ∨ b = 0x81 ∨ b = 0x83 ∨
  b = 0x86 ∨ b = 0x87 ∨ b = 0x88 ∨ b = 0x89 ∨ b = 0x8a ∨ b = 0x8b ∨
  b = 0xa4 ∨ b = 0xaa ∨ b = 0xc4 ∨ b = 0xc5 ∨ b = 0xc6 ∨ b = 0xc7 ∨
  b = 0xf6 ∨ b = 0xf7

instance (b : ℕ) : Decidable (supportedOp1 b) := by
  unfold supportedOp1; infer_instance

/-- Group-2 (segment-override) prefix bytes. -/
def isG2 (b : ℕ) : Prop :=
  b = 0x2e ∨ b = 0x36 ∨ b = 0x3e ∨ b = 0x26 ∨ b = 0x64 ∨ b = 0x65

instance (b : ℕ) : Decidable (isG2 b) := by unfold isG2; infer_instance

/-- A prefix byte advances the scan by one, for some updated state. -/
theorem pfxScan_step {b : ℕ} (hb : isPfxByte b) (xs : List ℕ) (st : PfxState)
    (n : ℕ) : ∃ st', pfxScan (b :: xs) st n = pfxScan xs st' (n + 1) := by
  rcases hb with h|h|h|h|h|h|h|h|h|h|h
  · exact h ▸ ⟨_, rfl⟩
  · exact h ▸ ⟨_, rfl⟩
  · exact h ▸ ⟨_, rfl⟩
  · exact h ▸ ⟨_, rfl⟩
  · exact h ▸ ⟨_, rfl⟩
  · exact h ▸ ⟨_, rfl⟩
  · exact h ▸ ⟨_, rfl⟩
  · exact h ▸ ⟨_, rfl⟩
  · exact h ▸ ⟨_, rfl⟩
  · exact h ▸ ⟨_, rfl⟩
  · -- REX case: b &&& 0xf0 = 0x40
    refine ⟨{ st with rex := if st.rex = 0 then b else st.rex }, ?_⟩
    have h1 : b ≠ 0xf0 := fun e => absurd h (by subst e; decide)
    have h2 : b ≠ 0xf2 := fun e => absurd h (by subst e; decide)
    have h3 : b ≠ 0xf3 := fun e => absurd h (by subst e; decide)
    have hg2 : ¬(b = 0x2e ∨ b = 0x36 ∨ b = 0x3e ∨ b = 0x26 ∨ b = 0x64 ∨
        b = 0x65) := by
      rintro (e|e|e|e|e|e) <;> exact absurd h (by subst e; decide)
    have h66 : b ≠ 0x66 := fun e => absurd h (by subst e; decide)
    have h67 : b ≠ 0x67 := fun e => absurd h (by subst e; decide)
    show (if b = 0xf0 then _ else _) = _
    rw [if_neg h1, if_neg h2, if_neg h3, if_neg hg2, if_neg h66, if_neg h67,
      if_pos h]

/-- Scanning stops at the first non-prefix, non-`0x67` byte, reporting the
number of prefixes consumed. -/
theorem pfxScan_stops (ps : List ℕ) (hps : ∀ b ∈ ps, isPfxByte b) {b : ℕ}
    (hb : ¬ isPfxByte b) (hb67 : b ≠ 0x67) (rest : List ℕ) :
    ∀ st n, ∃ st', pfxScan (ps ++ b :: rest) st n =
      some (st', n + ps.length, b, rest) := by
  induction ps with
  | nil =>
    intro st n
    refine ⟨st, ?_⟩
    unfold isPfxByte at hb
    push_neg at hb
    obtain ⟨e1, e2, e3, e4, e5, e6, e7, e8, e9, e10, e11⟩ := hb
    have hg2 : ¬(b = 0x2e ∨ b = 0x36 ∨ b = 0x3e ∨ b = 0x26 ∨ b = 0x64 ∨
        b = 0x65) := by rintro (e|e|e|e|e|e) <;> simp_all
    show (if b = 0xf0 then _ else _) = _
    rw [if_neg e1, if_neg e2, if_neg e3, if_neg hg2, if_neg e10, if_neg hb67,
      if_neg e11]
    simp
  | cons a ps ih =>
    intro st n
    have ha : isPfxByte a := hps a (by simp)
    obtain ⟨st1, h1⟩ := pfxScan_step ha (ps ++ b :: rest) st n
    obtain ⟨st2, h2⟩ := ih (fun x hx => hps x (by simp [hx])) st1 (n + 1)
    refine ⟨st2, ?_⟩
    rw [List.cons_append, h1, h2]
    congr 2
    simp [List.length_cons]
    omega

/-- Hitting `0x67` during the prefix scan aborts with `none`. -/
theorem pfxScan_aborts (ps : List ℕ) (hps : ∀ b ∈ ps, isPfxByte b)
    (rest : List ℕ) : ∀ st n, pfxScan (ps ++ 0x67 :: rest) st n = none := by
  induction ps with
  | nil => intro st n; rfl
  | cons a ps ih =>
    intro st n
    have ha : isPfxByte a := hps a (by simp)
    obtain ⟨st1, h1⟩ := pfxScan_step ha (ps ++ 0x67 :: rest) st n
    rw [List.cons_append, h1, ih (fun x hx => hps x (by simp [hx]))]

/-- An opcode byte outside the enumerated set makes the dispatch fail. -/
theorem decodeBody_unsupported (st : PfxState) (b : ℕ) (r1 : List ℕ)
    (hb : ¬ supportedOp1 b) : decodeBody st b r1 = decodeFail := by
  unfold supportedOp1 at hb
  push_neg at hb
  obtain ⟨h1, h2, h3, h4, h5, h6, h7, h8, h9, h10, h11, h12, h13, h14, h15,
    h16, h17, h18, h19, h20⟩ := hb
  have hc45 : ¬(b = 0xc4 ∨ b = 0xc5) := by rintro (e|e) <;> simp_all
  unfold decodeBody
  rw [if_neg h1, if_neg h2, if_neg h3, if_neg h4, if_neg h5, if_neg h6,
    if_neg h7, if_neg h8, if_neg h9, if_neg h10, if_neg h11, if_neg h12,
    if_neg h13, if_neg h14, if_neg hc45, if_neg h17, if_neg h18, if_neg h19,
    if_neg h20]

/-- C2: an input stream that is an unsupported form — any run of legacy/REX
prefixes followed by the address-size-override prefix `0x67`, or followed
by a first opcode byte outside the enumerated supported set — decodes to
`kind = NONE` with `length = 0`. -/
theorem C2_unsupported_forms (ps rest : List ℕ)
    (hps : ∀ x ∈ ps, isPfxByte x) (b : ℕ) (hb1 : ¬ isPfxByte b)
    (hb2 : ¬ supportedOp1 b) (hb3 : b ≠ 0x67) :
    decode_x64_reg_op (ps ++ 0x67 :: rest) = decodeFail ∧
    decode_x64_reg_op (ps ++ b :: rest) = decodeFail := by
  constructor
  · unfold decode_x64_reg_op
    rw [pfxScan_aborts ps hps rest pfx0 0]
  · unfold decode_x64_reg_op
    obtain ⟨st', h⟩ := pfxScan_stops ps hps hb1 hb3 rest pfx0 0
    rw [h]
    simp [decodeBody_unsupported _ _ _ hb2]

/-- Witness for C2 at a concrete input: `F0 67 00` (LOCK then the
address-size override) and `F0 01 00` (LOCK then the unsupported opcode
`0x01`) both decode to `NONE` with length 0. -/
theorem C2_unsupported_forms_witness :
    decode_x64_reg_op [0xf0, 0x67, 0x00] = decodeFail ∧
    decode_x64_reg_op [0xf0, 0x01, 0x00] = decodeFail :=
  C2_unsupported_forms [0xf0] [0x00] (by decide) 0x01 (by decide) (by decide)
    (by decide)

/-! ## C9: duplicate-prefix behaviour -/

/-- The decode outcome (operation, operand register, operand size),
independent of the byte count. -/
def outcome (d : Decoded) : X64Op × ℕ × ℕ := (d.op, d.reg, d.size)

/-- The byte count threaded through the prefix scan is a pure offset. -/
theorem pfxScan_shift (xs : List ℕ) : ∀ (st : PfxState) (n : ℕ),
    pfxScan xs st (n + 1) =
      (pfxScan xs st n).map (fun r => (r.1, r.2.1 + 1, r.2.2)) := by
  induction xs with
  | nil => intro st n; rfl
  | cons b xs ih =>
    intro st n
    show (if b = 0xf0 then _ else _) = Option.map _ (if b = 0xf0 then _ else _)
    split_ifs <;> first | rw [ih] | rfl

/-- The decode outcome only depends on the scan's state and opcode bytes,
not on the prefix-byte count. -/
theorem outcome_assemble (d : Decoded) (n n' : ℕ) :
    outcome (if d = decodeFail then decodeFail
             else ⟨d.op, d.reg, d.size, d.length + n⟩) =
    outcome (if d = decodeFail then decodeFail
             else ⟨d.op, d.reg, d.size, d.length + n'⟩) := by
  by_cases h : d = decodeFail <;> simp [h, outcome]

/-- C9 counterexample: on the stream `40 48 8B 00` (two REX prefixes, the
second carrying REX.W, before a `MOV r, r/m`), the decoder selects operand
width 4 — the first REX byte `0x40` (no W bit) governs — whereas the
claim's "last REX byte wins" rule would select the width given by `0x48`,
namely 8. -/
theorem C9_counterexample :
    (decode_x64_reg_op [0x40, 0x48, 0x8b, 0x00]).size = 4 ∧
    get_op_size 0x48 false = 8 := by decide

/-- C9 (amended): duplicate prefixes are tolerated and decoding proceeds,
but for REX the FIRST byte's value wins (a later REX byte is ignored);
group-1/3 booleans are sticky, and for group 2 the first byte wins. -/
theorem C9_amended_first_rex_wins :
    (∀ r1 r2 : ℕ, ∀ rest : List ℕ, isREX r1 → isREX r2 →
      outcome (decode_x64_reg_op (r1 :: r2 :: rest)) =
        outcome (decode_x64_reg_op (r1 :: rest))) ∧
    (∀ p : ℕ, ∀ rest : List ℕ, p = 0xf0 ∨ p = 0xf2 ∨ p = 0xf3 ∨ p = 0x66 →
      outcome (decode_x64_reg_op (p :: p :: rest)) =
        outcome (decode_x64_reg_op (p :: rest))) ∧
    (∀ p1 p2 : ℕ, ∀ rest : List ℕ, isG2 p1 → isG2 p2 →
      outcome (decode_x64_reg_op (p1 :: p2 :: rest)) =
        outcome (decode_x64_reg_op (p1 :: rest))) := by
  have key : ∀ (st1 : PfxState) (xs : List ℕ) (k : ℕ),
      outcome (match pfxScan xs st1 (k + 1) with
        | none => decodeFail
        | some (st, n, op1, r1) =>
          if decodeBody st op1 r1 = decodeFail then decodeFail
          else ⟨(decodeBody st op1 r1).op, (decodeBody st op1 r1).reg,
                (decodeBody st op1 r1).size,
                (decodeBody st op1 r1).length + (n + 1)⟩) =
      outcome (match pfxScan xs st1 k with
        | none => decodeFail
        | some (st, n, op1, r1) =>
          if decodeBody st op1 r1 = decodeFail then decodeFail
          else ⟨(decodeBody st op1 r1).op, (decodeBody st op1 r1).reg,
                (decodeBody st op1 r1).size,
                (decodeBody st op1 r1).length + (n + 1)⟩) := by
    intro st1 xs k
    rw [pfxScan_shift]
    cases pfxScan xs st1 k with
    | none => rfl
    | some r =>
      obtain ⟨st, n, op1, rst⟩ := r
      exact outcome_assemble (decodeBody st op1 rst) (n + 1 + 1) (n + 1)
  refine ⟨?_, ?_, ?_⟩
  · intro r1 r2 rest h1 h2
    have hr1 : r1 &&& 0xf0 = 0x40 := h1
    have hr2 : r2 &&& 0xf0 = 0x40 := h2
    have hr1ne : r1 ≠ 0 := by intro e; subst e; exact absurd hr1 (by decide)
    have hstep1 : pfxScan (r1 :: r2 :: rest) pfx0 0 =
        pfxScan (r2 :: rest) { pfx0 with rex := r1 } 1 := by
      have h1' : r1 ≠ 0xf0 := fun e => absurd hr1 (by subst e; decide)
      have h2' : r1 ≠ 0xf2 := fun e => absurd hr1 (by subst e; decide)
      have h3' : r1 ≠ 0xf3 := fun e => absurd hr1 (by subst e; decide)
      have hg2 : ¬(r1 = 0x2e ∨ r1 = 0x36 ∨ r1 = 0x3e ∨ r1 = 0x26 ∨
          r1 = 0x64 ∨ r1 = 0x65) := by
        rintro (e|e|e|e|e|e) <;> exact absurd hr1 (by subst e; decide)
      have h66 : r1 ≠ 0x66 := fun e => absurd hr1 (by subst e; decide)
      have h67 : r1 ≠ 0x67 := fun e => absurd hr1 (by subst e; decide)
      show (if r1 = 0xf0 then _ else _) = _
      rw [if_neg h1', if_neg h2', if_neg h3', if_neg hg2, if_neg h66,
        if_neg h67, if_pos hr1]
      rfl
    have hstep1b : pfxScan (r1 :: rest) pfx0 0 =
        pfxScan rest { pfx0 with rex := r1 } 1 := by
      have h1' : r1 ≠ 0xf0 := fun e => absurd hr1 (by subst e; decide)
      have h2' : r1 ≠ 0xf2 := fun e => absurd hr1 (by subst e; decide)
      have h3' : r1 ≠ 0xf3 := fun e => absurd hr1 (by subst e; decide)
      have hg2 : ¬(r1 = 0x2e ∨ r1 = 0x36 ∨ r1 = 0x3e ∨ r1 = 0x26 ∨
          r1 = 0x64 ∨ r1 = 0x65) := by
        rintro (e|e|e|e|e|e) <;> exact absurd hr1 (by subst e; decide)
      have h66 : r1 ≠ 0x66 := fun e => absurd hr1 (by subst e; decide)
      have h67 : r1 ≠ 0x67 := fun e => absurd hr1 (by subst e; decide)
      show (if r1 = 0xf0 then _ else _) = _
      rw [if_neg h1', if_neg h2', if_neg h3', if_neg hg2, if_neg h66,
        if_neg h67, if_pos hr1]
      rfl
    have hstep2 : pfxScan (r2 :: rest) { pfx0 with rex := r1 } 1 =
        pfxScan rest { pfx0 with rex := r1 } 2 := by
      have h1' : r2 ≠ 0xf0 := fun e => absurd hr2 (by subst e; decide)
      have h2' : r2 ≠ 0xf2 := fun e => absurd hr2 (by subst e; decide)
      have h3' : r2 ≠ 0xf3 := fun e => absurd hr2 (by subst e; decide)
      have hg2 : ¬(r2 = 0x2e ∨ r2 = 0x36 ∨ r2 = 0x3e ∨ r2 = 0x26 ∨
          r2 = 0x64 ∨ r2 = 0x65) := by
        rintro (e|e|e|e|e|e) <;> exact absurd hr2 (by subst e; decide)
      have h66 : r2 ≠ 0x66 := fun e => absurd hr2 (by subst e; decide)
      have h67 : r2 ≠ 0x67 := fun e => absurd hr2 (by subst e; decide)
      show (if r2 = 0xf0 then _ else _) = _
      rw [if_neg h1', if_neg h2', if_neg h3', if_neg hg2, if_neg h66,
        if_neg h67, if_pos hr2]
      simp [hr1ne]
    unfold decode_x64_reg_op
    rw [hstep1, hstep2, hstep1b]
    exact key { pfx0 with rex := r1 } rest 1
  · rintro p rest (e|e|e|e) <;> subst e
    · exact key { pfx0 with lockp := true } rest 1
    · exact key { pfx0 with repne := true } rest 1
    · exact key { pfx0 with repe := true } rest 1
    · exact key { pfx0 with oso := true } rest 1
  · rintro p1 p2 rest e1 e2
    rcases e1 with e|e|e|e|e|e <;> subst e <;>
      rcases e2 with f|f|f|f|f|f <;> subst f <;>
      exact key _ rest 1

/-- Witness for the amended C9 statement at concrete prefix pairs:
a second REX byte after `0x40` is ignored, a duplicated LOCK prefix is
tolerated, and only the first of two segment prefixes matters. -/
theorem C9_amended_first_rex_wins_witness :
    outcome (decode_x64_reg_op [0x40, 0x48, 0x8b, 0x00]) =
      outcome (decode_x64_reg_op [0x40, 0x8b, 0x00]) ∧
    outcome (decode_x64_reg_op [0xf0, 0xf0, 0x87, 0x08]) =
      outcome (decode_x64_reg_op [0xf0, 0x87, 0x08]) ∧
    outcome (decode_x64_reg_op [0x2e, 0x36, 0x89, 0x00]) =
      outcome (decode_x64_reg_op [0x2e, 0x89, 0x00]) :=
  ⟨C9_amended_first_rex_wins.1 0x40 0x48 [0x8b, 0x00] (by decide) (by decide),
   C9_amended_first_rex_wins.2.1 0xf0 [0x87, 0x08] (Or.inl rfl),
   C9_amended_first_rex_wins.2.2 0x2e 0x36 [0x89, 0x00] (by decide)
     (by decide)⟩

/-! ## C8: instruction length correctness

`claimModRMLen`, `claimImmLen`, `claimedBody` and `claimedLen` are the
refinement side: they restate the claim's byte-count rule in its own
words (prefix bytes + opcode bytes + ModRM/SIB/displacement per the
Mod/RM table + trailing immediate), to be compared with the decoder's
accumulated `out_length`. -/

/-- The displacement/SIB contribution exactly as the claim states it:
Mod=0 adds 2 bytes when RM=4 (SIB) else 1; Mod=1 adds 2 or 3; Mod=2 adds
5 or 6; Mod=3 adds 1. -/
def claimModRMLen (m : ℕ) : ℕ :=
  if m >>> 6 = 0 then (if m &&& 7 = 4 then 2 else 1)
  else if m >>> 6 = 1 then (if m &&& 7 = 4 then 3 else 2)
  else if m >>> 6 = 2 then (if m &&& 7 = 4 then 6 else 5)
  else 1

/-- Trailing-immediate byte count per opcode family: the `imm8` families
add 1 byte, the `imm16/imm32` families add 2 or 4 depending on the
operand-size override, every other supported family has no immediate. -/
def claimImmLen (op1 : ℕ) (oso : Bool) : ℕ :=
  if op1 = 0x80 ∨ op1 = 0x83 ∨ op1 = 0xc6 ∨ op1 = 0xf6 then 1
  else if op1 = 0x81 ∨ op1 = 0xc7 ∨ op1 = 0xf7 then (if oso then 2 else 4) else 0

/-- Predicted byte count beyond the prefix bytes and the first opcode
byte: extra opcode bytes, ModRM/SIB/displacement, immediate. -/
def claimedBody (st : PfxState) (op1 : ℕ) (r1 : List ℕ) : ℕ :=
  if op1 = 0x0f then
    if r1.getD 0 0 = 0x38 then 2 + claimModRMLen (r1.getD 2 0)
    else 1 + claimModRMLen (r1.getD 1 0)
  else if op1 = 0xc4 ∨ op1 = 0xc5 then
    if op1 = 0xc5 then 2 + claimModRMLen (r1.getD 2 0)
    else 3 + claimModRMLen (r1.getD 3 0)
  else if op1 = 0xa4 ∨ op1 = 0xaa then 0
  else claimModRMLen (r1.getD 0 0) + claimImmLen op1 st.oso

/-- The claim's predicted total instruction length: prefixes + opcode
bytes + ModRM/SIB/displacement + immediate. -/
def claimedLen (code : List ℕ) : ℕ :=
  match pfxScan code pfx0 0 with
  | none => 0
  | some (st, n, op1, r1) => n + 1 + claimedBody st op1 r1

/-- The decoder's ModRM size table agrees with the claim's rule. -/
theorem get_modRM_size_eq (m : ℕ) : get_modRM_size m = claimModRMLen m := by
  unfold get_modRM_size claimModRMLen
  rcases e : m >>> 6 with _ | _ | _ | k <;> simp [e]

set_option maxHeartbeats 2000000 in
/-- Two-byte-map lengths follow the claim's rule. -/
theorem decode0F_len (st : PfxState) (r1 : List ℕ)
    (h : (decode0F st r1).op ≠ X64Op.NONE) :
    (decode0F st r1).length =
      if r1.getD 0 0 = 0x38 then 2 + claimModRMLen (r1.getD 2 0)
      else 1 + claimModRMLen (r1.getD 1 0) := by
  unfold decode0F at h ⊢
  split_ifs at h ⊢ <;>
    first
      | rfl
      | (exact absurd rfl h)
      | omega
      | simp_all [get_modRM_size_eq, decodeFail]

set_option maxHeartbeats 2000000 in
/-- VEX lengths follow the claim's rule. -/
theorem decodeVEX_len (st : PfxState) (op1 : ℕ) (r1 : List ℕ)
    (h : (decodeVEX st op1 r1).op ≠ X64Op.NONE) :
    (decodeVEX st op1 r1).length =
      if op1 = 0xc5 then 2 + claimModRMLen (r1.getD 2 0)
      else 3 + claimModRMLen (r1.getD 3 0) := by
  unfold decodeVEX at h ⊢
  split_ifs at h ⊢ <;>
    first
      | rfl
      | (exact absurd rfl h)
      | omega
      | simp_all [get_modRM_size_eq, decodeFail]

set_option maxHeartbeats 4000000 in
/-- Dispatch lengths follow the claim's rule whenever decoding succeeds. -/
theorem decodeBody_len (st : PfxState) (op1 : ℕ) (r1 : List ℕ)
    (h : (decodeBody st op1 r1).op ≠ X64Op.NONE) :
    (decodeBody st op1 r1).length = claimedBody st op1 r1 := by
  by_cases h0f : op1 = 0x0f
  · subst h0f
    have h' : (decode0F st r1).op ≠ X64Op.NONE := by simpa [decodeBody] using h
    simp [decodeBody, claimedBody, decode0F_len st r1 h']
  by_cases hc4 : op1 = 0xc4
  · subst hc4
    have h' : (decodeVEX st 0xc4 r1).op ≠ X64Op.NONE := by
      simpa [decodeBody] using h
    simp [decodeBody, claimedBody, decodeVEX_len st 0xc4 r1 h']
  by_cases hc5 : op1 = 0xc5
  · subst hc5
    have h' : (decodeVEX st 0xc5 r1).op ≠ X64Op.NONE := by
      simpa [decodeBody] using h
    simp [decodeBody, claimedBody, decodeVEX_len st 0xc5 r1 h']
  by_cases e20 : op1 = 0x20
  · subst e20
    unfold decodeBody at h ⊢
    unfold claimedBody
    norm_num at h ⊢
    first
      | (split_ifs at h ⊢ <;>
          simp_all [get_modRM_size_eq, claimImmLen, decodeFail])
      | simp_all [get_modRM_size_eq, claimImmLen, decodeFail]
  by_cases e21 : op1 = 0x21
  · subst e21
    unfold decodeBody at h ⊢
    unfold claimedBody
    norm_num at h ⊢
    first
      | (split_ifs at h ⊢ <;>
          simp_all [get_modRM_size_eq, claimImmLen, decodeFail])
      | simp_all [get_modRM_size_eq, claimImmLen, decodeFail]
  by_cases e80 : op1 = 0x80
  · subst e80
    unfold decodeBody at h ⊢
    unfold claimedBody
    norm_num at h ⊢
    first
      | (split_ifs at h ⊢ <;>
          simp_all [get_modRM_size_eq, claimImmLen, decodeFail])
      | simp_all [get_modRM_size_eq, claimImmLen, decodeFail]
  by_cases e81 : op1 = 0x81
  · subst e81
    unfold decodeBody at h ⊢
    unfold claimedBody
    norm_num at h ⊢
    first
      | (split_ifs at h ⊢ <;>
          simp_all [get_modRM_size_eq, claimImmLen, decodeFail])
      | simp_all [get_modRM_size_eq, claimImmLen, decodeFail]
  by_cases e83 : op1 = 0x83
  · subst e83
    unfold decodeBody at h ⊢
    unfold claimedBody
    norm_num at h ⊢
    first
      | (split_ifs at h ⊢ <;>
          simp_all [get_modRM_size_eq, claimImmLen, decodeFail])
      | simp_all [get_modRM_size_eq, claimImmLen, decodeFail]
  by_cases e86 : op1 = 0x86
  · subst e86
    unfold decodeBody at h ⊢
    unfold claimedBody
    norm_num at h ⊢
    first
      | (split_ifs at h ⊢ <;>
          simp_all [get_modRM_size_eq, claimImmLen, decodeFail])
      | simp_all [get_modRM_size_eq, claimImmLen, decodeFail]
  by_cases e87 : op1 = 0x87
  · subst e87
    unfold decodeBody at h ⊢
    unfold claimedBody
    norm_num at h ⊢
    first
      | (split_ifs at h ⊢ <;>
          simp_all [get_modRM_size_eq, claimImmLen, decodeFail])
      | simp_all [get_modRM_size_eq, claimImmLen, decodeFail]
  by_cases e88 : op1 = 0x88
  · subst e88
    unfold decodeBody at h ⊢
    unfold claimedBody
    norm_num at h ⊢
    first
      | (split_ifs at h ⊢ <;>
          simp_all [get_modRM_size_eq, claimImmLen, decodeFail])
      | simp_all [get_modRM_size_eq, claimImmLen, decodeFail]
  by_cases e89 : op1 = 0x89
  · subst e89
    unfold decodeBody at h ⊢
    unfold claimedBody
    norm_num at h ⊢
    first
      | (split_ifs at h ⊢ <;>
          simp_all [get_modRM_size_eq, claimImmLen, decodeFail])
      | simp_all [get_modRM_size_eq, claimImmLen, decodeFail]
  by_cases e8a : op1 = 0x8a
  · subst e8a
    unfold decodeBody at h ⊢
    unfold claimedBody
    norm_num at h ⊢
    first
      | (split_ifs at h ⊢ <;>
          simp_all [get_modRM_size_eq, claimImmLen, decodeFail])
      | simp_all [get_modRM_size_eq, claimImmLen, decodeFail]
  by_cases e8b : op1 = 0x8b
  · subst e8b
    unfold decodeBody at h ⊢
    unfold claimedBody
    norm_num at h ⊢
    first
      | (split_ifs at h ⊢ <;>
          simp_all [get_modRM_size_eq, claimImmLen, decodeFail])
      | simp_all [get_modRM_size_eq, claimImmLen, decodeFail]
  by_cases ea4 : op1 = 0xa4
  · subst ea4
    unfold decodeBody at h ⊢
    unfold claimedBody
    norm_num at h ⊢
    first
      | (split_ifs at h ⊢ <;>
          simp_all [get_modRM_size_eq, claimImmLen, decodeFail])
      | simp_all [get_modRM_size_eq, claimImmLen, decodeFail]
  by_cases eaa : op1 = 0xaa
  · subst eaa
    unfold decodeBody at h ⊢
    unfold claimedBody
    norm_num at h ⊢
    first
      | (split_ifs at h ⊢ <;>
          simp_all [get_modRM_size_eq, claimImmLen, decodeFail])
      | simp_all [get_modRM_size_eq, claimImmLen, decodeFail]
  by_cases ec6 : op1 = 0xc6
  · subst ec6
    unfold decodeBody at h ⊢
    unfold claimedBody
    norm_num at h ⊢
    first
      | (split_ifs at h ⊢ <;>
          simp_all [get_modRM_size_eq, claimImmLen, decodeFail])
      | simp_all [get_modRM_size_eq, claimImmLen, decodeFail]
  by_cases ec7 : op1 = 0xc7
  · subst ec7
    unfold decodeBody at h ⊢
    unfold claimedBody
    norm_num at h ⊢
    first
      | (split_ifs at h ⊢ <;>
          simp_all [get_modRM_size_eq, claimImmLen, decodeFail])
      | simp_all [get_modRM_size_eq, claimImmLen, decodeFail]
  by_cases ef6 : op1 = 0xf6
  · subst ef6
    unfold decodeBody at h ⊢
    unfold claimedBody
    norm_num at h ⊢
    first
      | (split_ifs at h ⊢ <;>
          simp_all [get_modRM_size_eq, claimImmLen, decodeFail])
      | simp_all [get_modRM_size_eq, claimImmLen, decodeFail]
  by_cases ef7 : op1 = 0xf7
  · subst ef7
    unfold decodeBody at h ⊢
    unfold claimedBody
    norm_num at h ⊢
    first
      | (split_ifs at h ⊢ <;>
          simp_all [get_modRM_size_eq, claimImmLen, decodeFail])
      | simp_all [get_modRM_size_eq, claimImmLen, decodeFail]
  have hun : ¬ supportedOp1 op1 := by unfold supportedOp1; tauto
  rw [decodeBody_unsupported st op1 r1 hun] at h
  exact absurd rfl h

/-- C8: for every supported encoding (decode succeeded, `op ≠ NONE`), the
returned `length` equals the claim's predicted byte count — prefixes +
opcode bytes + ModRM/SIB/displacement per the Mod/RM rule + immediate —
so re-running the decoder `length` bytes later starts exactly at the next
instruction. -/
theorem C8_length_exact (code : List ℕ)
    (h : (decode_x64_reg_op code).op ≠ X64Op.NONE) :
    (decode_x64_reg_op code).length = claimedLen code := by
  unfold decode_x64_reg_op at h ⊢
  unfold claimedLen
  cases e : pfxScan code pfx0 0 with
  | none => rw [e] at h; exact absurd rfl h
  | some r =>
    obtain ⟨st, n, op1, r1⟩ := r
    rw [e] at h
    have h' : (if decodeBody st op1 r1 = decodeFail then decodeFail
        else ⟨(decodeBody st op1 r1).op, (decodeBody st op1 r1).reg,
              (decodeBody st op1 r1).size,
              (decodeBody st op1 r1).length + (n + 1)⟩ : Decoded).op ≠
        X64Op.NONE := h
    show (if decodeBody st op1 r1 = decodeFail then decodeFail
        else ⟨(decodeBody st op1 r1).op, (decodeBody st op1 r1).reg,
              (decodeBody st op1 r1).size,
              (decodeBody st op1 r1).length + (n + 1)⟩ : Decoded).length =
      n + 1 + claimedBody st op1 r1
    by_cases hd : decodeBody st op1 r1 = decodeFail
    · rw [if_pos hd] at h' ⊢; exact absurd rfl h'
    · rw [if_neg hd] at h' ⊢
      have hlen := decodeBody_len st op1 r1 h'
      show (decodeBody st op1 r1).length + (n + 1) =
        n + 1 + claimedBody st op1 r1
      omega

/-- Witness for C8: the stream `48 8B 01` (`mov rax, [rcx]`) decodes with
length 3, matching the claim's rule. -/
theorem C8_length_exact_witness :
    (decode_x64_reg_op [0x48, 0x8b, 0x01]).length =
      claimedLen [0x48, 0x8b, 0x01] ∧ claimedLen [0x48, 0x8b, 0x01] = 3 :=
  ⟨C8_length_exact [0x48, 0x8b, 0x01] (by decide), by decide⟩

/-! ## Host context (`x64_context` accessors)

`X64Ctx` abstracts the OS-specific saved register context: 16 general
registers (`X64REG`), 16 vector registers (`XMMREG`), the flags register
(`EFLAGS`) and the instruction pointer (`RIP`).  All values are `u64`
(128-bit for vector registers), represented as `Nat`. -/

/-- `2^64 - 1`: the value mask of the C code's `u64`. -/
def u64mask : ℕ := 0xffffffffffffffff

/-- The saved thread context. -/
structure X64Ctx where
  gpr : Fin 16 → ℕ
  xmm : Fin 16 → ℕ
  eflags : ℕ
  rip : ℕ

/-- Set (`|=`) or clear (`&= ~`) one flag bit group. -/
def setFlag (f m : ℕ) (b : Bool) : ℕ :=
  if b then f ||| m else f &&& (u64mask ^^^ m)

/-- `set_x64_cmp_flags`: recompute CF/ZF/SF/OF/PF/AF from `x` and `y`
exactly as the source does — CF/OF/AF from the bit-carry formulas over the
sum `x + y`, ZF from `x == y`, SF/PF from the difference `x - y` — and
fail on an invalid operand size.  `x0`, `y0` are the `u64` arguments. -/
def set_x64_cmp_flags (c : X64Ctx) (d_size x0 y0 : ℕ) (carry : Bool) :
    Option X64Ctx :=
  if d_size = 1 ∨ d_size = 2 ∨ d_size = 4 ∨ d_size = 8 then
    let x := x0 % 2 ^ 64
    let y := y0 % 2 ^ 64
    let sign := 1 <<< (d_size * 8 - 1)
    let diff := (x + (2 ^ 64 - y)) % 2 ^ 64
    let summ := (x + y) % 2 ^ 64
    let carries := (x &&& y) ||| ((x ^^^ y) &&& (u64mask ^^^ summ))
    let f1 := if carry then setFlag c.eflags 0x1 (carries &&& sign ≠ 0)
              else c.eflags
    let f2 := setFlag f1 0x40 (x = y)
    let f3 := setFlag f2 0x80 (diff &&& sign ≠ 0)
    let f4 := setFlag f3 0x800 ((x ^^^ summ) &&& (y ^^^ summ) &&& sign ≠ 0)
    let p1 := (diff % 256) ^^^ ((diff % 256) >>> 4)
    let p2 := p1 ^^^ (p1 >>> 2)
    let p3 := p2 ^^^ (p2 >>> 1)
    let f5 := setFlag f4 0x4 (p3 &&& 1 = 0)
    let f6 := setFlag f5 0x10 (carries &&& 8 ≠ 0)
    some { c with eflags := f6 }
  else none

/-- Real-hardware carry flag for the x86 compare/subtraction `x - y` at
width `w` bytes: the borrow condition `x < y` (spec side: the flags "must
reproduce hardware flag semantics exactly"). -/
def hwCmpCF (w x y : ℕ) : Bool := x % 2 ^ (8 * w) < y % 2 ^ (8 * w)

/-- Real-hardware auxiliary-carry flag for `x - y`: borrow out of the low
nibble. -/
def hwCmpAF (x y : ℕ) : Bool := x % 16 < y % 16

/-- A concrete context whose flags start with CF and AF set. -/
def ctxFlags0xFF : X64Ctx := ⟨fun _ => 0, fun _ => 0, 0xFF, 0⟩

/-- C1: the claim fails on the code.  At the claim's own test vector
`(x, y) = (0, 1)` at width 4 — where real hardware sets CF (borrow: 0 < 1)
and AF — `set_x64_cmp_flags` *clears* both CF and AF (its carry formulas
are the addition-carry formulas over `x + y`, not the subtraction borrow),
so the computed flags are not the hardware flags for `x - y`. -/
theorem C1_code_bug_carry_flag :
    (set_x64_cmp_flags ctxFlags0xFF 4 0 1 true).map
        (fun c => (c.eflags &&& 0x1, c.eflags &&& 0x10)) = some (0, 0) ∧
    hwCmpCF 4 0 1 = true ∧ hwCmpAF 0 1 = true := by decide

/-- `put_x64_reg_value`: write a value into a general register, with the
source's masks reproduced bit-for-bit — in the C code the byte/word masks
`0xffffff00`/`0xffff0000` are 32-bit literals, so they zero-extend to 64
bits and the assignment clears register bits 32..63. -/
def put_x64_reg_value (c : X64Ctx) (reg d_size value0 : ℕ) : Option X64Ctx :=
  let value := value0 % 2 ^ 64
  if h : reg - X64R_RAX < 16 then
    let i : Fin 16 := ⟨reg - X64R_RAX, h⟩
    let old := c.gpr i
    if d_size = 1 then
      some { c with gpr :=
        Function.update c.gpr i ((value &&& 0xff) ||| (old &&& 0xffffff00)) }
    else if d_size = 2 then
      some { c with gpr :=
        Function.update c.gpr i ((value &&& 0xffff) ||| (old &&& 0xffff0000)) }
    else if d_size = 4 then
      some { c with gpr := Function.update c.gpr i (value &&& 0xffffffff) }
    else if d_size = 8 then
      some { c with gpr := Function.update c.gpr i value }
    else none
  else none

/-- A concrete context with `RAX = 0x123456789A`. -/
def ctxRax : X64Ctx :=
  ⟨fun i => if i = 0 then 0x123456789A else 0, fun _ => 0, 0, 0⟩

/-- C3: the claim fails on the code.  A byte write of `0xFF` to RAX holding
`0x123456789A` must — per the claim's partial-register semantics — leave
`0x12345678FF`; the code instead produces `0x345678FF`: bits 32..63 are
zeroed because the preserve-mask `0xffffff00` is a 32-bit literal. -/
theorem C3_code_bug_high_bits :
    (put_x64_reg_value ctxRax 0 1 0xFF).map (fun c => c.gpr 0) =
      some 0x345678FF ∧ (0x345678FF : ℕ) ≠ 0x12345678FF := by decide

/-- Sign extension from `f` bits to `t` bits. -/
def sext (f t v : ℕ) : ℕ :=
  if v &&& (1 <<< (f - 1)) = 0 then v % 2 ^ t
  else (v % 2 ^ f + (2 ^ t - 2 ^ f)) % 2 ^ t

/-- `get_x64_reg_value`: resolve an operand (general register, legacy
8-bit register, immediate re-read from the faulting instruction's trailing
bytes, `ECX`, or a condition-code pseudo-register) to a value, truncating
or sign-extending to the destination size.  `code` models the bytes at
the (pre-advanced) instruction pointer. -/
def get_x64_reg_value (c : X64Ctx) (code : List ℕ) (reg d_size i_size : ℕ) :
    Option ℕ :=
  if h : reg - X64R_RAX < 16 then
    let reg_value := c.gpr ⟨reg - X64R_RAX, h⟩
    if d_size = 1 then some (reg_value % 2 ^ 8)
    else if d_size = 2 then some (reg_value % 2 ^ 16)
    else if d_size = 4 then some (reg_value % 2 ^ 32)
    else if d_size = 8 then some reg_value
    else none
  else if h : reg - X64R_AL < 4 ∧ d_size = 1 then
    some (c.gpr ⟨reg - X64R_AL, by omega⟩ % 2 ^ 8)
  else if h : reg - (X64R_AL + 4) < 4 ∧ d_size = 1 then
    some ((c.gpr ⟨reg - (X64R_AL + 4), by omega⟩ >>> 8) % 2 ^ 8)
  else if reg = X64_IMM8 then
    let b := code.getD (i_size - 1) 0 % 2 ^ 8
    if d_size = 1 then some b
    else if d_size = 2 then some (sext 8 16 b)
    else if d_size = 4 then some (sext 8 32 b)
    else if d_size = 8 then some (sext 8 64 b)
    else none
  else if reg = X64_IMM16 then
    let v := code.getD (i_size - 2) 0 % 2 ^ 8 +
      2 ^ 8 * (code.getD (i_size - 1) 0 % 2 ^ 8)
    if d_size = 2 then some v else none
  else if reg = X64_IMM32 then
    let v := code.getD (i_size - 4) 0 % 2 ^ 8 +
      2 ^ 8 * (code.getD (i_size - 3) 0 % 2 ^ 8) +
      2 ^ 16 * (code.getD (i_size - 2) 0 % 2 ^ 8) +
      2 ^ 24 * (code.getD (i_size - 1) 0 % 2 ^ 8)
    if d_size = 4 then some v
    else if d_size = 8 then some (sext 32 64 v)
    else none
  else if reg = X64R_ECX then some (c.gpr 1 % 2 ^ 32)
  else if X64_BIT_O ≤ reg ∧ reg ≤ X64_BIT_O + 15 then
    let cf := c.eflags &&& 0x1
    let zf := c.eflags &&& 0x40
    let sf := c.eflags &&& 0x80
    let ovf := c.eflags &&& 0x800
    let pf := c.eflags &&& 0x4
    let l := (sf <<< 4) ^^^ ovf
    let v :=
      if reg &&& 0xfe = 0x90 then (if ovf ≠ 0 then 1 else 0)
      else if reg &&& 0xfe = 0x92 then (if cf ≠ 0 then 1 else 0)
      else if reg &&& 0xfe = 0x94 then (if zf ≠ 0 then 1 else 0)
      else if reg &&& 0xfe = 0x96 then (if cf ||| zf ≠ 0 then 1 else 0)
      else if reg &&& 0xfe = 0x98 then (if sf ≠ 0 then 1 else 0)
      else if reg &&& 0xfe = 0x9a then (if pf ≠ 0 then 1 else 0)
      else if reg &&& 0xfe = 0x9c then (if l ≠ 0 then 1 else 0)
      else (if l ||| zf ≠ 0 then 1 else 0)
    some (v ^^^ (reg &&& 1))
  else none

/-! ## Emulated memory

Memory is a byte map `ℕ → ℕ`; multi-byte accesses are little-endian, so
the aligned volatile stores and the `memcpy` fallback of the source
collapse to the same `writeMem`. -/

/-- Read `n` bytes little-endian starting at `a`. -/
def readMem (mem : ℕ → ℕ) : ℕ → ℕ → ℕ
  | _, 0 => 0
  | a, n + 1 => mem a % 2 ^ 8 + 2 ^ 8 * readMem mem (a + 1) n

/-- Write `n` bytes of `v` little-endian starting at `a`. -/
def writeMem : (ℕ → ℕ) → ℕ → ℕ → ℕ → (ℕ → ℕ)
  | mem, _, 0, _ => mem
  | mem, a, n + 1, v =>
    writeMem (fun x => if x = a then v % 2 ^ 8 else mem x) (a + 1) n (v / 2 ^ 8)

/-- `se_storage<u16>::swap`. -/
def bswap16 (v : ℕ) : ℕ := (v % 2 ^ 8) * 2 ^ 8 + (v / 2 ^ 8) % 2 ^ 8

/-- `se_storage<u32>::swap`. -/
def bswap32 (v : ℕ) : ℕ :=
  (v % 2 ^ 8) * 2 ^ 24 + ((v / 2 ^ 8) % 2 ^ 8) * 2 ^ 16 +
  ((v / 2 ^ 16) % 2 ^ 8) * 2 ^ 8 + (v / 2 ^ 24) % 2 ^ 8

/-- `se_storage<u64>::swap`. -/
def bswap64 (v : ℕ) : ℕ :=
  (v % 2 ^ 8) * 2 ^ 56 + ((v / 2 ^ 8) % 2 ^ 8) * 2 ^ 48 +
  ((v / 2 ^ 16) % 2 ^ 8) * 2 ^ 40 + ((v / 2 ^ 24) % 2 ^ 8) * 2 ^ 32 +
  ((v / 2 ^ 32) % 2 ^ 8) * 2 ^ 24 + ((v / 2 ^ 40) % 2 ^ 8) * 2 ^ 16 +
  ((v / 2 ^ 48) % 2 ^ 8) * 2 ^ 8 + (v / 2 ^ 56) % 2 ^ 8

/-! ## Block-operation loops (`X64OP_STOS` / `X64OP_MOVS`)

The loops copy one element per iteration while the element address stays
inside the faulting 4096-byte page (`a_addr >> 12 == addr >> 12`),
decrementing the u64 counter register when a repeat prefix supplied one
(`reg != X64_NOT_SET`), and stop at the page boundary or when the counter
hits zero.  `fuel` bounds the iteration count for termination; every run
the claims exercise stays far below it.  The descending-direction path
(source: logged TODO, `return false`) is rejected before the loop by the
callers. -/

/-- One `stos` run.  Returns `(memory, rdi, rcx, written addresses)`. -/
def stos_loop : ℕ → (ℕ → ℕ) → ℕ → ℕ → ℕ → ℕ → ℕ → ℕ → Bool → List ℕ →
    Option ((ℕ → ℕ) × ℕ × ℕ × List ℕ)
  | 0, _, _, _, _, _, _, _, _, _ => none
  | fuel + 1, mem, value, d_size, addr, a_addr, rdi, rcx, hasCtr, ws =>
    if a_addr >>> 12 = addr >>> 12 then
      let mem2 := writeMem mem a_addr d_size value
      let ws2 := ws ++ [a_addr]
      let rdi2 := (rdi + d_size) % 2 ^ 64
      let a2 := (a_addr + d_size) % 2 ^ 32
      if ¬hasCtr then some (mem2, rdi2, rcx, ws2)
      else
        let rcx2 := (rcx + (2 ^ 64 - 1)) % 2 ^ 64
        if rcx2 = 0 then some (mem2, rdi2, 0, ws2)
        else stos_loop fuel mem2 value d_size addr a2 rdi2 rcx2 hasCtr ws2
    else some (mem, rdi, rcx, ws)

/-- One `movs` run.  Returns `(memory, rsi, rdi, rcx, written addresses)`. -/
def movs_loop : ℕ → (ℕ → ℕ) → (ℕ → ℕ) → ℕ → ℕ → ℕ → ℕ → ℕ → ℕ → Bool →
    List ℕ → Option ((ℕ → ℕ) × ℕ × ℕ × ℕ × List ℕ)
  | 0, _, _, _, _, _, _, _, _, _, _ => none
  | fuel + 1, mem, hostMem, d_size, addr, a_addr, rsi, rdi, rcx, hasCtr, ws =>
    if a_addr >>> 12 = addr >>> 12 then
      let value := readMem hostMem rsi d_size
      let mem2 := writeMem mem a_addr d_size value
      let ws2 := ws ++ [a_addr]
      let rsi2 := (rsi + d_size) % 2 ^ 64
      let rdi2 := (rdi + d_size) % 2 ^ 64
      let a2 := (a_addr + d_size) % 2 ^ 32
      if ¬hasCtr then some (mem2, rsi2, rdi2, rcx, ws2)
      else
        let rcx2 := (rcx + (2 ^ 64 - 1)) % 2 ^ 64
        if rcx2 = 0 then some (mem2, rsi2, rdi2, 0, ws2)
        else movs_loop fuel mem2 hostMem d_size addr a2 rsi2 rdi2 rcx2 hasCtr ws2
    else some (mem, rsi, rdi, rcx, ws)

/-- Truncate exponent helper: `2 ^ (8 * d)`. -/
def w8 (d : ℕ) : ℕ := 2 ^ (8 * d)

/-- The privileged RAM-mutation callback passed to the reservation
mechanism (`vm::reservation_query`'s lambda): performs the decoded
operation against backing memory (`mem`), updates the context, and — for
completed instructions — advances the instruction pointer by `i_size`.
Block operations whose counter is not yet exhausted at the page boundary
report success *without* advancing the instruction pointer.  `none` means
the callback returns `false` (unhandled), or the loop fuel ran out.
`hostMem` models the host bytes `movs` reads through RSI; `vmBase` models
`vm::base`, used only for the RDI pointer-identity guard of the block
operations. -/
def ram_mutate (c : X64Ctx) (code : List ℕ) (mem hostMem : ℕ → ℕ)
    (vmBase : ℕ → ℕ) (op : X64Op) (reg d_size i_size addr fuel : ℕ) :
    Option (X64Ctx × (ℕ → ℕ)) :=
  if d_size = 0 ∨ i_size = 0 then none
  else
    match op with
    | X64Op.STORE | X64Op.STORE_BE =>
      if d_size = 16 ∧ op = X64Op.STORE then
        if h : reg - 0 < 16 then
          some ({ c with rip := (c.rip + i_size) % 2 ^ 64 },
            writeMem mem addr 16 (c.xmm ⟨reg - 0, h⟩))
        else none
      else
        match get_x64_reg_value c code reg d_size i_size with
        | none => none
        | some rv0 =>
          let rv : Option ℕ :=
            if op = X64Op.STORE_BE ∧ d_size = 2 then some (bswap16 (rv0 % 2 ^ 16))
            else if op = X64Op.STORE_BE ∧ d_size = 4 then
              some (bswap32 (rv0 % 2 ^ 32))
            else if op = X64Op.STORE_BE ∧ d_size = 8 then
              some (bswap64 (rv0 % 2 ^ 64))
            else if op = X64Op.STORE_BE then none
            else some rv0
          match rv with
          | none => none
          | some v =>
            some ({ c with rip := (c.rip + i_size) % 2 ^ 64 },
              writeMem mem addr d_size v)
    | X64Op.MOVS =>
      if d_size > 8 then none
      else if vmBase addr ≠ c.gpr 7 then none
      else if c.eflags &&& 0x400 ≠ 0 then none
      else
        match movs_loop fuel mem hostMem d_size addr addr (c.gpr 6) (c.gpr 7)
            (c.gpr 1) (reg ≠ X64_NOT_SET) [] with
        | none => none
        | some (mem2, rsi2, rdi2, rcx2, _) =>
          let g2 := Function.update
            (Function.update (Function.update c.gpr 6 rsi2) 7 rdi2) 1 rcx2
          let c2 := { c with gpr := g2 }
          if reg = X64_NOT_SET ∨ rcx2 = 0 then
            some ({ c2 with rip := (c2.rip + i_size) % 2 ^ 64 }, mem2)
          else some (c2, mem2)
    | X64Op.STOS =>
      if d_size > 8 then none
      else if vmBase addr ≠ c.gpr 7 then none
      else
        match get_x64_reg_value c code X64R_RAX d_size i_size with
        | none => none
        | some value =>
          if c.eflags &&& 0x400 ≠ 0 then none
          else
            match stos_loop fuel mem value d_size addr addr (c.gpr 7)
                (c.gpr 1) (reg ≠ X64_NOT_SET) [] with
            | none => none
            | some (mem2, rdi2, rcx2, _) =>
              let g2 := Function.update (Function.update c.gpr 7 rdi2) 1 rcx2
              let c2 := { c with gpr := g2 }
              if reg = X64_NOT_SET ∨ rcx2 = 0 then
                some ({ c2 with rip := (c2.rip + i_size) % 2 ^ 64 }, mem2)
              else some (c2, mem2)
    | X64Op.XCHG =>
      match get_x64_reg_value c code reg d_size i_size with
      | none => none
      | some rv =>
        if d_size = 1 ∨ d_size = 2 ∨ d_size = 4 ∨ d_size = 8 then
          let old := readMem mem addr d_size
          match put_x64_reg_value c reg d_size old with
          | none => none
          | some c2 =>
            some ({ c2 with rip := (c2.rip + i_size) % 2 ^ 64 },
              writeMem mem addr d_size rv)
        else none
    | X64Op.CMPXCHG =>
      match get_x64_reg_value c code reg d_size i_size,
            get_x64_reg_value c code X64R_RAX d_size i_size with
      | some reg_value, some cmp_value =>
        if d_size = 1 ∨ d_size = 2 ∨ d_size = 4 ∨ d_size = 8 then
          let old_value := readMem mem addr d_size
          let mem2 := if old_value = cmp_value then
            writeMem mem addr d_size reg_value else mem
          match put_x64_reg_value c X64R_RAX d_size old_value with
          | none => none
          | some c2 =>
            match set_x64_cmp_flags c2 d_size cmp_value old_value true with
            | none => none
            | some c3 =>
              some ({ c3 with rip := (c3.rip + i_size) % 2 ^ 64 }, mem2)
        else none
      | _, _ => none
    | X64Op.AND =>
      match get_x64_reg_value c code reg d_size i_size with
      | none => none
      | some v =>
        if d_size = 1 ∨ d_size = 2 ∨ d_size = 4 ∨ d_size = 8 then
          let newv := readMem mem addr d_size &&& v % w8 d_size
          match set_x64_cmp_flags c d_size newv 0 true with
          | none => none
          | some c2 =>
            some ({ c2 with rip := (c2.rip + i_size) % 2 ^ 64 },
              writeMem mem addr d_size newv)
        else none
    | X64Op.OR =>
      match get_x64_reg_value c code reg d_size i_size with
      | none => none
      | some v =>
        if d_size = 1 ∨ d_size = 2 ∨ d_size = 4 ∨ d_size = 8 then
          let newv := readMem mem addr d_size ||| v % w8 d_size
          match set_x64_cmp_flags c d_size newv 0 true with
          | none => none
          | some c2 =>
            some ({ c2 with rip := (c2.rip + i_size) % 2 ^ 64 },
              writeMem mem addr d_size newv)
        else none
    | X64Op.XOR =>
      match get_x64_reg_value c code reg d_size i_size with
      | none => none
      | some v =>
        if d_size = 1 ∨ d_size = 2 ∨ d_size = 4 ∨ d_size = 8 then
          let newv := readMem mem addr d_size ^^^ v % w8 d_size
          match set_x64_cmp_flags c d_size newv 0 true with
          | none => none
          | some c2 =>
            some ({ c2 with rip := (c2.rip + i_size) % 2 ^ 64 },
              writeMem mem addr d_size newv)
        else none
    | X64Op.INC =>
      if d_size = 1 ∨ d_size = 2 ∨ d_size = 4 ∨ d_size = 8 then
        let newv := (readMem mem addr d_size + 1) % w8 d_size
        match set_x64_cmp_flags c d_size newv 1 false with
        | none => none
        | some c2 =>
          some ({ c2 with rip := (c2.rip + i_size) % 2 ^ 64 },
            writeMem mem addr d_size newv)
      else none
    | X64Op.DEC =>
      if d_size = 1 ∨ d_size = 2 ∨ d_size = 4 ∨ d_size = 8 then
        let newv := (readMem mem addr d_size + (w8 d_size - 1)) % w8 d_size
        match set_x64_cmp_flags c d_size newv (2 ^ 64 - 1) false with
        | none => none
        | some c2 =>
          some ({ c2 with rip := (c2.rip + i_size) % 2 ^ 64 },
            writeMem mem addr d_size newv)
      else none
    | X64Op.ADD =>
      match get_x64_reg_value c code reg d_size i_size with
      | none => none
      | some v =>
        if d_size = 1 ∨ d_size = 2 ∨ d_size = 4 ∨ d_size = 8 then
          let newv := (readMem mem addr d_size + v % w8 d_size) % w8 d_size
          match set_x64_cmp_flags c d_size newv v true with
          | none => none
          | some c2 =>
            some ({ c2 with rip := (c2.rip + i_size) % 2 ^ 64 },
              writeMem mem addr d_size newv)
        else none
    | X64Op.ADC =>
      match get_x64_reg_value c code reg d_size i_size with
      | none => none
      | some v =>
        if d_size = 1 ∨ d_size = 2 ∨ d_size = 4 ∨ d_size = 8 then
          let vc := (v + (c.eflags &&& 0x1)) % 2 ^ 64
          let newv := (readMem mem addr d_size + vc % w8 d_size) % w8 d_size
          match set_x64_cmp_flags c d_size newv vc true with
          | none => none
          | some c2 =>
            some ({ c2 with rip := (c2.rip + i_size) % 2 ^ 64 },
              writeMem mem addr d_size newv)
        else none
    | X64Op.SUB =>
      match get_x64_reg_value c code reg d_size i_size with
      | none => none
      | some v =>
        if d_size = 1 ∨ d_size = 2 ∨ d_size = 4 ∨ d_size = 8 then
          let newv := (readMem mem addr d_size +
            (w8 d_size - v % w8 d_size)) % w8 d_size
          match set_x64_cmp_flags c d_size newv
              ((2 ^ 64 - v % 2 ^ 64) % 2 ^ 64) true with
          | none => none
          | some c2 =>
            some ({ c2 with rip := (c2.rip + i_size) % 2 ^ 64 },
              writeMem mem addr d_size newv)
        else none
    | X64Op.SBB =>
      match get_x64_reg_value c code reg d_size i_size with
      | none => none
      | some v =>
        if d_size = 1 ∨ d_size = 2 ∨ d_size = 4 ∨ d_size = 8 then
          let vc := (v + (c.eflags &&& 0x1)) % 2 ^ 64
          let newv := (readMem mem addr d_size +
            (w8 d_size - vc % w8 d_size)) % w8 d_size
          match set_x64_cmp_flags c d_size newv ((2 ^ 64 - vc) % 2 ^ 64)
              true with
          | none => none
          | some c2 =>
            some ({ c2 with rip := (c2.rip + i_size) % 2 ^ 64 },
              writeMem mem addr d_size newv)
        else none
    | _ => none

/-! ## Access size and the fault handler -/

/-- `get_x64_access_size`: the byte span the reservation mechanism must
cover.  For block operations with descending direction the bound check is
skipped (0); with a repeat counter the span is `d_size * counter` (u64
product); for a compare-exchange whose operand already equals the
accumulator the instruction provably cannot mutate memory, so 0; register
read failures return `(size_t)-1`, modelled as `2^64 - 1`. -/
def get_x64_access_size (c : X64Ctx) (code : List ℕ) (op : X64Op)
    (reg d_size i_size : ℕ) : ℕ :=
  if (op = X64Op.MOVS ∨ op = X64Op.STOS) ∧ c.eflags &&& 0x400 ≠ 0 then 0
  else if (op = X64Op.MOVS ∨ op = X64Op.STOS) ∧ reg ≠ X64_NOT_SET then
    match get_x64_reg_value c code reg 8 i_size with
    | none => u64mask
    | some counter => (d_size * counter) % 2 ^ 64
  else if op = X64Op.CMPXCHG then
    match get_x64_reg_value c code reg d_size i_size,
          get_x64_reg_value c code X64R_RAX d_size i_size with
    | some cmp, some exch => if cmp = exch then 0 else d_size
    | _, _ => u64mask
  else d_size

/-- The RawSPU MMIO routing test of the handler:
`addr - RAW_SPU_BASE_ADDR < 6 * RAW_SPU_OFFSET &&
 addr % RAW_SPU_OFFSET >= RAW_SPU_PROB_OFFSET`,
with the u32 wrap-around subtraction made explicit.  The three constants
live in emulator headers outside this tree, so they are parameters. -/
def rawSPUProbe (BASE OFF PROB addr : ℕ) : Prop :=
  (addr % 2 ^ 32 + 2 ^ 32 - BASE % 2 ^ 32) % 2 ^ 32 < 6 * OFF ∧
  PROB ≤ addr % OFF

instance (BASE OFF PROB addr : ℕ) :
    Decidable (rawSPUProbe BASE OFF PROB addr) := by
  unfold rawSPUProbe; infer_instance

/-- The MMIO (RawSPU register window) branch of the handler.  `readReg` /
`writeReg` model the external `RawSPUThread::read_reg` / `write_reg`;
`spuExists` models the instance lookup.  Only plain load / load-BE /
load-compare / load-test / store / store-BE with access size 4 (and a
successfully decoded instruction) are accepted; everything else is
unhandled (`none`). -/
def mmio_handle (c : X64Ctx) (code : List ℕ) (spuExists : Bool)
    (readReg : ℕ → Option ℕ) (writeReg : ℕ → ℕ → Bool) (op : X64Op)
    (reg d_size a_size i_size addr : ℕ) (is_writing : Bool) :
    Option X64Ctx :=
  if ¬spuExists then none
  else if a_size ≠ 4 ∨ d_size = 0 ∨ i_size = 0 then none
  else
    match op with
    | X64Op.LOAD | X64Op.LOAD_BE | X64Op.LOAD_CMP | X64Op.LOAD_TEST =>
      if is_writing then none
      else
        match readReg addr with
        | none => none
        | some value0 =>
          let value := if op ≠ X64Op.LOAD_BE then bswap32 (value0 % 2 ^ 32)
            else value0 % 2 ^ 32
          if op = X64Op.LOAD_CMP then
            match get_x64_reg_value c code reg d_size i_size with
            | none => none
            | some rvalue =>
              match set_x64_cmp_flags c d_size value rvalue true with
              | none => none
              | some c2 => some { c2 with rip := (c2.rip + i_size) % 2 ^ 64 }
          else if op = X64Op.LOAD_TEST then
            match get_x64_reg_value c code reg d_size i_size with
            | none => none
            | some rvalue =>
              match set_x64_cmp_flags c d_size (value &&& rvalue) 0 true with
              | none => none
              | some c2 => some { c2 with rip := (c2.rip + i_size) % 2 ^ 64 }
          else
            match put_x64_reg_value c reg d_size value with
            | none => none
            | some c2 => some { c2 with rip := (c2.rip + i_size) % 2 ^ 64 }
    | X64Op.STORE | X64Op.STORE_BE =>
      if ¬is_writing then none
      else
        match get_x64_reg_value c code reg d_size i_size with
        | none => none
        | some rv =>
          if writeReg addr (if op = X64Op.STORE then bswap32 (rv % 2 ^ 32)
              else rv % 2 ^ 32) then
            some { c with rip := (c.rip + i_size) % 2 ^ 64 }
          else none
    | _ => none

/-- `handle_access_violation`: full fault handling.  In order: offer the
fault to the external display hook (`rsxClaims`); decode the instruction
at the context's instruction pointer (`code`); reject when the operand
size or the computed access size would carry `addr + size` past the
32-bit emulated span; route to the RawSPU register interface when the
address satisfies `rawSPUProbe`; otherwise run the privileged RAM-mutation
callback.  Modelled from the spec: `vm::reservation_query` "executes
mutateCallback under reservation-consistent ordering; returns its
result", so the RAM path's outcome is the callback's outcome; on an
unhandled fault the pre-fault context and memory are returned.  Returns
`(handled, context, memory)`. -/
def handle_access_violation (BASE OFF PROB : ℕ) (rsxClaims spuExists : Bool)
    (readReg : ℕ → Option ℕ) (writeReg : ℕ → ℕ → Bool) (c : X64Ctx)
    (code : List ℕ) (mem hostMem vmBase : ℕ → ℕ) (fuel addr0 : ℕ)
    (is_writing : Bool) : Bool × X64Ctx × (ℕ → ℕ) :=
  let addr := addr0 % 2 ^ 32
  if rsxClaims then (true, c, mem)
  else
    let d := decode_x64_reg_op code
    if 2 ^ 32 ≤ (d.size ||| (d.size + addr)) then (false, c, mem)
    else
      let a_size := get_x64_access_size c code d.op d.reg d.size d.length
      if 2 ^ 32 ≤ (a_size ||| (a_size + addr)) then (false, c, mem)
      else if rawSPUProbe BASE OFF PROB addr then
        match mmio_handle c code spuExists readReg writeReg d.op d.reg d.size
            a_size d.length addr is_writing with
        | none => (false, c, mem)
        | some c2 => (true, c2, mem)
      else
        match ram_mutate c code mem hostMem vmBase d.op d.reg d.size d.length
            addr fuel with
        | none => (false, c, mem)
        | some (c2, mem2) => (true, c2, mem2)

/-! ## C4: block-store continuation at a page boundary -/

/-- The block-operation continuation discipline: a handled block
move/store either leaves the instruction pointer unchanged, or advanced
it by the instruction length with the counter exhausted (no repeat
counter, or `RCX = 0`). -/
def blockRipOk (c : X64Ctx) (reg i_size : ℕ) :
    Option (X64Ctx × (ℕ → ℕ)) → Prop
  | none => True
  | some r =>
    r.1.rip = c.rip ∨
      ((reg = X64_NOT_SET ∨ r.1.gpr 1 = 0) ∧
        r.1.rip = (c.rip + i_size) % 2 ^ 64)

/-- Context for the C4 scenario: a `rep stos` fault with `RDI = 0x1FF8`
(8 bytes before the page boundary `0x2000`), repeat counter `RCX = 5`,
ascending direction, instruction pointer 100. -/
def stosCtx : X64Ctx :=
  ⟨fun i => if i = 7 then 0x1FF8 else if i = 1 then 5 else
    if i = 0 then 0xAABBCCDD else 0, fun _ => 0, 0, 100⟩

/-- C4: with repeat counter 5 and element size 4 starting 8 bytes before a
4096-byte page boundary, the store loop performs exactly 2 element writes
(at `0x1FF8` and `0x1FFC`, stopping when the next element would cross the
boundary), the privileged path reports the fault handled with the counter
register left at 3 and the instruction pointer unchanged; and in general a
handled block move/store advances the instruction pointer only when its
counter is exhausted within the faulting page. -/
theorem C4_block_store_page_boundary :
    ((stos_loop 50 (fun _ => 0) 0xAABBCCDD 4 0x1FF8 0x1FF8 0x1FF8 5 true
        []).map (fun r => r.2.2.2) = some [0x1FF8, 0x1FFC]) ∧
    ((ram_mutate stosCtx [0xf3, 0xaa] (fun _ => 0) (fun _ => 0) (fun a => a)
        X64Op.STOS X64R_ECX 4 2 0x1FF8 50).map
        (fun r => (r.1.gpr 1, r.1.rip)) = some (3, 100)) ∧
    (∀ (c : X64Ctx) (code : List ℕ) (mem hostMem vmBase : ℕ → ℕ)
        (reg d_size i_size addr fuel : ℕ),
      blockRipOk c reg i_size (ram_mutate c code mem hostMem vmBase
        X64Op.STOS reg d_size i_size addr fuel)) ∧
    (∀ (c : X64Ctx) (code : List ℕ) (mem hostMem vmBase : ℕ → ℕ)
        (reg d_size i_size addr fuel : ℕ),
      blockRipOk c reg i_size (ram_mutate c code mem hostMem vmBase
        X64Op.MOVS reg d_size i_size addr fuel)) := by
  refine ⟨by decide, by decide, ?_, ?_⟩
  · intro c code mem hostMem vmBase reg d_size i_size addr fuel
    cases e : ram_mutate c code mem hostMem vmBase X64Op.STOS reg d_size
        i_size addr fuel with
    | none => exact trivial
    | some r =>
      obtain ⟨c2, mem2⟩ := r
      show c2.rip = c.rip ∨ _
      simp only [ram_mutate] at e
      split at e
      · exact absurd e (by simp)
      split at e
      · exact absurd e (by simp)
      split at e
      · exact absurd e (by simp)
      split at e
      · exact absurd e (by simp)
      split at e
      · exact absurd e (by simp)
      split at e
      · exact absurd e (by simp)
      split at e
      next hdone =>
        rw [Option.some.injEq, Prod.mk.injEq] at e
        obtain ⟨ec, _⟩ := e
        right
        subst ec
        refine ⟨?_, rfl⟩
        rcases hdone with h | h
        · exact Or.inl h
        · exact Or.inr (by simp [Function.update, h])
      next =>
        rw [Option.some.injEq, Prod.mk.injEq] at e
        obtain ⟨ec, _⟩ := e
        subst ec
        exact Or.inl rfl
  · intro c code mem hostMem vmBase reg d_size i_size addr fuel
    cases e : ram_mutate c code mem hostMem vmBase X64Op.MOVS reg d_size
        i_size addr fuel with
    | none => exact trivial
    | some r =>
      obtain ⟨c2, mem2⟩ := r
      show c2.rip = c.rip ∨ _
      simp only [ram_mutate] at e
      split at e
      · exact absurd e (by simp)
      split at e
      · exact absurd e (by simp)
      split at e
      · exact absurd e (by simp)
      split at e
      · exact absurd e (by simp)
      split at e
      · exact absurd e (by simp)
      split at e
      next hdone =>
        rw [Option.some.injEq, Prod.mk.injEq] at e
        obtain ⟨ec, _⟩ := e
        right
        subst ec
        refine ⟨?_, rfl⟩
        rcases hdone with h | h
        · exact Or.inl h
        · exact Or.inr (by simp [Function.update, h])
      next =>
        rw [Option.some.injEq, Prod.mk.injEq] at e
        obtain ⟨ec, _⟩ := e
        subst ec
        exact Or.inl rfl

/-! ## C5: compare-exchange with equal operands -/

/-- Bytes strictly below the write window are untouched. -/
theorem writeMem_lt : ∀ (n : ℕ) (mem : ℕ → ℕ) (a v x : ℕ), x < a →
    writeMem mem a n v x = mem x
  | 0, _, _, _, _, _ => rfl
  | n + 1, mem, a, v, x, hx => by
    show writeMem _ (a + 1) n _ x = mem x
    rw [writeMem_lt n _ (a + 1) _ x (by omega)]
    simp [Nat.ne_of_lt hx]

/-- Little-endian read-back of a write. -/
theorem readMem_writeMem : ∀ (n : ℕ) (mem : ℕ → ℕ) (a v : ℕ),
    readMem (writeMem mem a n v) a n = v % 2 ^ (8 * n)
  | 0, _, _, v => by simp [readMem, writeMem, Nat.mod_one]
  | n + 1, mem, a, v => by
    show readMem (writeMem _ (a + 1) n _) a (n + 1) = _
    unfold readMem
    rw [writeMem_lt n _ (a + 1) _ a (by omega),
      readMem_writeMem n _ (a + 1) (v / 2 ^ 8)]
    have h1 : (8 : ℕ) * (n + 1) = 8 + 8 * n := by ring
    rw [h1, pow_add, Nat.mod_mul]
    simp

/-- A little-endian read is bounded by the width. -/
theorem readMem_lt : ∀ (n : ℕ) (mem : ℕ → ℕ) (a : ℕ),
    readMem mem a n < 2 ^ (8 * n)
  | 0, _, _ => by simp [readMem]
  | n + 1, mem, a => by
    have h1 := readMem_lt n mem (a + 1)
    have h2 : mem a % 2 ^ 8 < 2 ^ 8 := Nat.mod_lt _ (by norm_num)
    have h3 : (2 : ℕ) ^ (8 * (n + 1)) = 2 ^ 8 * 2 ^ (8 * n) := by
      rw [← pow_add]; ring_nf
    unfold readMem
    rw [h3]
    have : (2 : ℕ) ^ 8 = 256 := by norm_num
    rw [this] at h2 h3 ⊢
    omega

/-- Bits of a conjunction with a low-bits-clear mask vanish below the cut. -/
theorem land_mod_two_pow_zero (k b a : ℕ) (hb : b % 2 ^ k = 0) :
    (a &&& b) % 2 ^ k = 0 := by
  apply Nat.eq_of_testBit_eq
  intro i
  rw [Nat.testBit_mod_two_pow, Nat.testBit_and, Nat.zero_testBit]
  by_cases hik : i < k
  · have hbi : b.testBit i = false := by
      have := congrArg (fun t => t.testBit i) hb
      simpa [Nat.testBit_mod_two_pow, hik] using this
    simp [hbi]
  · simp [hik]

/-- Low bits of a disjunction with a low-bits-clear operand. -/
theorem lor_mod_two_pow {x y k : ℕ} (hx : x < 2 ^ k) (hy : y % 2 ^ k = 0) :
    (x ||| y) % 2 ^ k = x := by
  apply Nat.eq_of_testBit_eq
  intro i
  rw [Nat.testBit_mod_two_pow, Nat.testBit_or]
  by_cases hik : i < k
  · have hyi : y.testBit i = false := by
      have := congrArg (fun t => t.testBit i) hy
      simpa [Nat.testBit_mod_two_pow, hik] using this
    simp [hik, hyi]
  · have hxi : x.testBit i = false := Nat.testBit_lt_two_pow
      (lt_of_lt_of_le hx (Nat.pow_le_pow_right (by norm_num) (by omega)))
    simp [hik, hxi]

/-- Setting or clearing one flag leaves disjoint flag bits alone. -/
theorem setFlag_and_other (f : ℕ) (m₁ m₂ : ℕ) (b : Bool)
    (h1 : m₁ &&& m₂ = 0) (h2 : (u64mask ^^^ m₁) &&& m₂ = m₂) :
    setFlag f m₁ b &&& m₂ = f &&& m₂ := by
  unfold setFlag
  split
  · apply Nat.eq_of_testBit_eq
    intro i
    rw [Nat.testBit_and, Nat.testBit_or, Nat.testBit_and]
    have := congrArg (fun t => t.testBit i) h1
    simp only [Nat.testBit_and, Nat.zero_testBit, Bool.and_eq_false_iff]
      at this
    rcases this with h | h <;> simp [h]
  · rw [Nat.and_assoc, h2]

/-- The bit written by `setFlag` reads back as the written boolean. -/
theorem setFlag_and_self_ne (f : ℕ) (m : ℕ) (b : Bool) (hm : m ≠ 0)
    (h2 : (u64mask ^^^ m) &&& m = 0) :
    (setFlag f m b &&& m ≠ 0 ↔ b = true) := by
  unfold setFlag
  cases b with
  | false =>
    rw [if_neg (by simp)]
    rw [Nat.and_assoc, h2]
    simp
  | true =>
    rw [if_pos rfl]
    simp only [iff_true]
    intro hz
    apply hm
    apply Nat.eq_of_testBit_eq
    intro i
    have := congrArg (fun t => t.testBit i) hz
    simp only [Nat.testBit_and, Nat.testBit_or, Nat.zero_testBit,
      Bool.and_eq_false_iff, Bool.or_eq_false_iff] at this
    rcases this with ⟨_, h⟩ | h <;> simp [h]

/-- `set_x64_cmp_flags` succeeds on valid sizes, changes only the flags
register, and sets the zero flag exactly when the (u64) operands agree. -/
theorem set_x64_cmp_flags_eq (c : X64Ctx) (d x y : ℕ) (b : Bool)
    (hd : d = 1 ∨ d = 2 ∨ d = 4 ∨ d = 8) :
    ∃ f, set_x64_cmp_flags c d x y b = some { c with eflags := f } ∧
      (f &&& 0x40 ≠ 0 ↔ x % 2 ^ 64 = y % 2 ^ 64) := by
  unfold set_x64_cmp_flags
  rw [if_pos hd]
  refine ⟨_, rfl, ?_⟩
  rw [setFlag_and_other _ 0x10 0x40 _ (by decide) (by decide),
    setFlag_and_other _ 0x4 0x40 _ (by decide) (by decide),
    setFlag_and_other _ 0x800 0x40 _ (by decide) (by decide),
    setFlag_and_other _ 0x80 0x40 _ (by decide) (by decide),
    setFlag_and_self_ne _ 0x40 _ (by decide) (by decide)]
  simp

/-- Writing the accumulator at a valid width stores the value's low bits
and touches neither the flags nor the instruction pointer. -/
theorem put_rax (c : X64Ctx) (d v : ℕ)
    (hd : d = 1 ∨ d = 2 ∨ d = 4 ∨ d = 8) (hv : v < w8 d) :
    ∃ c2, put_x64_reg_value c X64R_RAX d v = some c2 ∧
      c2.gpr 0 % w8 d = v ∧ c2.eflags = c.eflags ∧ c2.rip = c.rip := by
  have hv64 : v % 2 ^ 64 = v := by
    apply Nat.mod_eq_of_lt
    rcases hd with h|h|h|h <;> subst h <;>
      exact lt_of_lt_of_le hv (by norm_num [w8])
  have hbound : X64R_RAX - X64R_RAX < 16 := by norm_num [X64R_RAX]
  have hidx : (0 : Fin 16) = ⟨X64R_RAX - X64R_RAX, hbound⟩ := by
    apply Fin.ext
    norm_num [X64R_RAX]
  rcases hd with h|h|h|h <;> subst h
  · refine ⟨_, rfl, ?_, rfl, rfl⟩
    dsimp only
    rw [Function.update_apply, if_pos hidx,
      show w8 1 = 2 ^ 8 by norm_num [w8]]
    have e1 : v % 2 ^ 64 &&& 0xff = v := by
      rw [hv64, show (0xff : ℕ) = 2 ^ 8 - 1 by norm_num,
        Nat.and_pow_two_sub_one_eq_mod]
      exact Nat.mod_eq_of_lt (by simpa [w8] using hv)
    rw [e1]
    exact lor_mod_two_pow (by simpa [w8] using hv)
      (land_mod_two_pow_zero 8 _ _ (by decide))
  · refine ⟨_, rfl, ?_, rfl, rfl⟩
    dsimp only
    rw [Function.update_apply, if_pos hidx,
      show w8 2 = 2 ^ 16 by norm_num [w8]]
    have e1 : v % 2 ^ 64 &&& 0xffff = v := by
      rw [hv64, show (0xffff : ℕ) = 2 ^ 16 - 1 by norm_num,
        Nat.and_pow_two_sub_one_eq_mod]
      exact Nat.mod_eq_of_lt (by simpa [w8] using hv)
    rw [e1]
    exact lor_mod_two_pow (by simpa [w8] using hv)
      (land_mod_two_pow_zero 16 _ _ (by decide))
  · refine ⟨_, rfl, ?_, rfl, rfl⟩
    dsimp only
    rw [Function.update_apply, if_pos hidx,
      show w8 4 = 2 ^ 32 by norm_num [w8]]
    have e1 : v % 2 ^ 64 &&& 0xffffffff = v := by
      rw [hv64, show (0xffffffff : ℕ) = 2 ^ 32 - 1 by norm_num,
        Nat.and_pow_two_sub_one_eq_mod]
      exact Nat.mod_eq_of_lt (by simpa [w8] using hv)
    rw [e1]
    exact Nat.mod_eq_of_lt (by simpa [w8] using hv)
  · refine ⟨_, rfl, ?_, rfl, rfl⟩
    dsimp only
    rw [Function.update_apply, if_pos hidx,
      show w8 8 = 2 ^ 64 by norm_num [w8], hv64]
    exact Nat.mod_eq_of_lt (by simpa [w8] using hv)

/-- What the privileged path must deliver for a compare-exchange: success,
memory value preserved, old value in the accumulator's low bits, the zero
flag reflecting the comparison, instruction pointer advanced. -/
def cmpxchgDone (c : X64Ctx) (mem : ℕ → ℕ) (addr d i v : ℕ) :
    Option (X64Ctx × (ℕ → ℕ)) → Prop
  | none => False
  | some r =>
    readMem r.2 addr d = readMem mem addr d ∧
    r.1.gpr 0 % w8 d = readMem mem addr d ∧
    (r.1.eflags &&& 0x40 ≠ 0 ↔ v = readMem mem addr d) ∧
    r.1.rip = (c.rip + i) % 2 ^ 64

/-- C5: when the decoded operand register resolves to the same value as
the accumulator at the access width, `get_x64_access_size` reports 0 (no
reservation bound check), yet the privileged mutation path still performs
the compare-and-swap against backing memory — whose stored value is
necessarily unchanged — writes the old value into the accumulator,
updates the compare flags (zero flag set exactly when the old value
matches), and advances the instruction pointer. -/
theorem C5_cmpxchg_equal_operands (c : X64Ctx) (code : List ℕ)
    (mem hostMem vmBase : ℕ → ℕ) (reg d_size i_size addr fuel v : ℕ)
    (hd : d_size = 1 ∨ d_size = 2 ∨ d_size = 4 ∨ d_size = 8)
    (hi : i_size ≠ 0) (hv : v < w8 d_size)
    (hreg : get_x64_reg_value c code reg d_size i_size = some v)
    (hacc : get_x64_reg_value c code X64R_RAX d_size i_size = some v) :
    get_x64_access_size c code X64Op.CMPXCHG reg d_size i_size = 0 ∧
    cmpxchgDone c mem addr d_size i_size v
      (ram_mutate c code mem hostMem vmBase X64Op.CMPXCHG reg d_size i_size
        addr fuel) := by
  have hw64 : w8 d_size ≤ 2 ^ 64 := by
    rcases hd with h|h|h|h <;> subst h <;> norm_num [w8]
  have hd0 : d_size ≠ 0 := by rcases hd with h|h|h|h <;> simp [h]
  constructor
  · unfold get_x64_access_size
    rw [if_neg (by simp), if_neg (by simp), if_pos rfl, hreg, hacc]
    simp
  · have hold := readMem_lt d_size mem addr
    obtain ⟨cP, hput, hlow, hfl, hrip⟩ :=
      put_rax c d_size (readMem mem addr d_size) hd (by simpa [w8] using hold)
    obtain ⟨F, hflags, hzf⟩ :=
      set_x64_cmp_flags_eq cP d_size v (readMem mem addr d_size) true hd
    simp only [ram_mutate, hreg, hacc, hput, hflags,
      if_neg (show ¬(d_size = 0 ∨ i_size = 0) by tauto), if_pos hd]
    refine ⟨?_, ?_, ?_, ?_⟩
    · by_cases he : readMem mem addr d_size = v
      · rw [if_pos he, readMem_writeMem]
        rw [show (2 : ℕ) ^ (8 * d_size) = w8 d_size from rfl,
          Nat.mod_eq_of_lt hv, he]
      · rw [if_neg he]
    · exact hlow
    · show F &&& 0x40 ≠ 0 ↔ v = readMem mem addr d_size
      rw [hzf, Nat.mod_eq_of_lt (lt_of_lt_of_le hv hw64),
        Nat.mod_eq_of_lt (lt_of_lt_of_le (by simpa [w8] using hold) hw64)]
    · show (cP.rip + i_size) % 2 ^ 64 = (c.rip + i_size) % 2 ^ 64
      rw [hrip]

/-- A context for the C5 witness: both the operand register RCX and the
accumulator RAX hold 5. -/
def cmpCtx : X64Ctx :=
  ⟨fun i => if i = 0 then 5 else if i = 1 then 5 else 0, fun _ => 0,
   0x40, 200⟩

/-- Witness for C5: at the concrete compare-exchange fault above (width 4,
memory holding `0x07070707`), the access size is 0 and the privileged
path performs the compare-and-swap. -/
theorem C5_cmpxchg_equal_operands_witness :
    get_x64_access_size cmpCtx [0xf0, 0x0f, 0xb1, 0x08] X64Op.CMPXCHG
      X64R_RCX 4 4 = 0 ∧
    cmpxchgDone cmpCtx (fun _ => 7) 0x1000 4 4 5
      (ram_mutate cmpCtx [0xf0, 0x0f, 0xb1, 0x08] (fun _ => 7) (fun _ => 0)
        (fun a => a) X64Op.CMPXCHG X64R_RCX 4 4 0x1000 50) :=
  C5_cmpxchg_equal_operands cmpCtx [0xf0, 0x0f, 0xb1, 0x08] (fun _ => 7)
    (fun _ => 0) (fun a => a) X64R_RCX 4 4 0x1000 50 5
    (by norm_num) (by norm_num) (by norm_num [w8]) (by decide) (by decide)

/-! ## C6: MMIO routing -/

/-- C6: the handler routes a fault to the RawSPU register interface
exactly when the address lies inside one of the six per-instance register
windows AND at or beyond the probe offset within its slot (an address
inside a window but below the probe offset falls through to the RAM
path); and on the MMIO path only plain load / load-BE / load-compare /
load-test / store / store-BE with computed access size 4 are accepted —
any other operation or size is unhandled.  The window constants live
outside this tree, so the routing part is proved for all constant values
with the layout facts they satisfy (positive slot size, window base a
multiple of the slot size, window end within the 32-bit space). -/
theorem C6_mmio_routing :
    (∀ BASE OFF PROB addr : ℕ, 0 < OFF → BASE % OFF = 0 →
        BASE + 6 * OFF ≤ 2 ^ 32 → addr < 2 ^ 32 →
      (rawSPUProbe BASE OFF PROB addr ↔
        BASE ≤ addr ∧ addr < BASE + 6 * OFF ∧ PROB ≤ (addr - BASE) % OFF)) ∧
    (∀ (c : X64Ctx) (code : List ℕ) (spuExists : Bool)
        (readReg : ℕ → Option ℕ) (writeReg : ℕ → ℕ → Bool) (op : X64Op)
        (reg d_size a_size i_size addr : ℕ) (w : Bool),
      (¬(op = X64Op.LOAD ∨ op = X64Op.LOAD_BE ∨ op = X64Op.LOAD_CMP ∨
         op = X64Op.LOAD_TEST ∨ op = X64Op.STORE ∨ op = X64Op.STORE_BE) ∨
        a_size ≠ 4) →
      mmio_handle c code spuExists readReg writeReg op reg d_size a_size
        i_size addr w = none) := by
  constructor
  · intro BASE OFF PROB addr hOFF hmod hB haddr
    have hBlt : BASE < 2 ^ 32 := by omega
    unfold rawSPUProbe
    rw [Nat.mod_eq_of_lt haddr, Nat.mod_eq_of_lt hBlt]
    by_cases hge : BASE ≤ addr
    · have e1 : (addr + 2 ^ 32 - BASE) % 2 ^ 32 = addr - BASE := by
        have h2 : addr + 2 ^ 32 - BASE = (addr - BASE) + 1 * 2 ^ 32 := by
          omega
        rw [h2, Nat.add_mul_mod_self_right]
        exact Nat.mod_eq_of_lt (by omega)
      have e2 : addr % OFF = (addr - BASE) % OFF := by
        obtain ⟨k, hk⟩ := Nat.dvd_of_mod_eq_zero hmod
        have h3 : addr = (addr - BASE) + BASE := by omega
        conv_lhs => rw [h3, hk]
        rw [Nat.add_mul_mod_self_left, hk]
      rw [e1, e2]
      constructor
      · rintro ⟨p1, p2⟩; exact ⟨hge, by omega, p2⟩
      · rintro ⟨_, p1, p2⟩; exact ⟨by omega, p2⟩
    · have e1 : (addr + 2 ^ 32 - BASE) % 2 ^ 32 = addr + 2 ^ 32 - BASE :=
        Nat.mod_eq_of_lt (by omega)
      rw [e1]
      constructor
      · rintro ⟨p1, _⟩; omega
      · rintro ⟨p1, _⟩; exact absurd p1 hge
  · intro c code spuExists readReg writeReg op reg d_size a_size i_size
      addr w h
    unfold mmio_handle
    by_cases h1 : ¬spuExists = true
    · rw [if_pos h1]
    · rw [if_neg h1]
      by_cases h2 : a_size ≠ 4 ∨ d_size = 0 ∨ i_size = 0
      · rw [if_pos h2]
      · rw [if_neg h2]
        rcases h with hop | ha
        · cases op <;> first | rfl | (exfalso; simp at hop)
        · exact absurd (Or.inl ha) h2

/-- Witness for C6 at the real window constants (base `0xE0000000`, slot
`0x100000`, probe offset `0x40000`): the address `0xE0040000` routes to
MMIO, and a block-store of access size 4 on the MMIO path is unhandled. -/
theorem C6_mmio_routing_witness :
    (rawSPUProbe 0xE0000000 0x100000 0x40000 0xE0040000 ↔
      0xE0000000 ≤ 0xE0040000 ∧ (0xE0040000 : ℕ) < 0xE0000000 + 6 * 0x100000 ∧
      0x40000 ≤ ((0xE0040000 : ℕ) - 0xE0000000) % 0x100000) ∧
    mmio_handle ctxFlags0xFF [0xf3, 0xaa] true (fun _ => none)
      (fun _ _ => false) X64Op.STOS X64_NOT_SET 1 4 2 0xE0040000 true =
      none :=
  ⟨C6_mmio_routing.1 0xE0000000 0x100000 0x40000 0xE0040000 (by norm_num)
      (by norm_num) (by norm_num) (by norm_num),
   C6_mmio_routing.2 ctxFlags0xFF [0xf3, 0xaa] true (fun _ => none)
      (fun _ _ => false) X64Op.STOS X64_NOT_SET 1 4 2 0xE0040000 true
      (Or.inl (by simp))⟩

/-! ## C7: range rejection -/

/-- The all-zero context. -/
def zeroCtx : X64Ctx := ⟨fun _ => 0, fun _ => 0, 0, 0⟩

/-- C7 counterexample: the claim's "if and only if" fails in the
only-if direction.  On a fault whose instruction does not decode (an
address-size-override prefix), the handler reports unhandled although
neither the operand size nor the computed access size carries
`addr + size` past `2^32`. -/
theorem C7_counterexample :
    (handle_access_violation 0xE0000000 0x100000 0x40000 false false
        (fun _ => none) (fun _ _ => false) zeroCtx [0x67] (fun _ => 0)
        (fun _ => 0) (fun a => a) 50 0x1000 true).1 = false ∧
    ((decode_x64_reg_op [0x67]).size |||
      ((decode_x64_reg_op [0x67]).size + 0x1000)) < 2 ^ 32 ∧
    (get_x64_access_size zeroCtx [0x67] (decode_x64_reg_op [0x67]).op
        (decode_x64_reg_op [0x67]).reg (decode_x64_reg_op [0x67]).size
        (decode_x64_reg_op [0x67]).length |||
      (get_x64_access_size zeroCtx [0x67] (decode_x64_reg_op [0x67]).op
        (decode_x64_reg_op [0x67]).reg (decode_x64_reg_op [0x67]).size
        (decode_x64_reg_op [0x67]).length + 0x1000)) < 2 ^ 32 := by decide

/-- C7 (amended): when the decoded operand size or the computed access
size would make `addr + size` exceed the 32-bit emulated span, the
handler (with the external display hook not claiming the fault) reports
unhandled and leaves the context and memory untouched; the converse
does not hold — decode failures among others are also unhandled. -/
theorem C7_range_reject (BASE OFF PROB : ℕ) (spuExists : Bool)
    (readReg : ℕ → Option ℕ) (writeReg : ℕ → ℕ → Bool) (c : X64Ctx)
    (code : List ℕ) (mem hostMem vmBase : ℕ → ℕ) (fuel addr0 : ℕ) (w : Bool)
    (hrange :
      2 ^ 32 ≤ ((decode_x64_reg_op code).size |||
        ((decode_x64_reg_op code).size + addr0 % 2 ^ 32)) ∨
      2 ^ 32 ≤ (get_x64_access_size c code (decode_x64_reg_op code).op
          (decode_x64_reg_op code).reg (decode_x64_reg_op code).size
          (decode_x64_reg_op code).length |||
        (get_x64_access_size c code (decode_x64_reg_op code).op
          (decode_x64_reg_op code).reg (decode_x64_reg_op code).size
          (decode_x64_reg_op code).length + addr0 % 2 ^ 32))) :
    handle_access_violation BASE OFF PROB false spuExists readReg writeReg c
      code mem hostMem vmBase fuel addr0 w = (false, c, mem) := by
  simp only [handle_access_violation]
  rcases hrange with h | h
  · rw [if_neg (by simp), if_pos h]
  · by_cases h1 : 2 ^ 32 ≤ ((decode_x64_reg_op code).size |||
        ((decode_x64_reg_op code).size + addr0 % 2 ^ 32))
    · rw [if_neg (by simp), if_pos h1]
    · rw [if_neg (by simp), if_neg h1, if_pos h]

/-- Witness for C7 (amended): a 4-byte store faulting at `0xFFFFFFFF` is
rejected as unhandled. -/
theorem C7_range_reject_witness :
    (handle_access_violation 0xE0000000 0x100000 0x40000 false false
        (fun _ => none) (fun _ _ => false) zeroCtx [0x89, 0x00] (fun _ => 0)
        (fun _ => 0) (fun a => a) 50 0xFFFFFFFF true).1 = false :=
  congrArg Prod.fst (C7_range_reject 0xE0000000 0x100000 0x40000 false
    (fun _ => none) (fun _ _ => false) zeroCtx [0x89, 0x00] (fun _ => 0)
    (fun _ => 0) (fun a => a) 50 0xFFFFFFFF true (Or.inl (by decide)))

/-! ## C10: frame property of the RAM-mutation path -/

/-- A register write touches only the targeted general register. -/
theorem put_frame (c : X64Ctx) (reg d v : ℕ) (c2 : X64Ctx)
    (h : put_x64_reg_value c reg d v = some c2) :
    (∀ j : Fin 16, j.val ≠ reg → c2.gpr j = c.gpr j) ∧
    c2.xmm = c.xmm ∧ c2.eflags = c.eflags ∧ c2.rip = c.rip := by
  unfold put_x64_reg_value at h
  split at h
  case isTrue hlt =>
    have hne : ∀ j : Fin 16, j.val ≠ reg → j ≠ ⟨reg - X64R_RAX, hlt⟩ := by
      intro j hj hcontra
      apply hj
      have := congrArg Fin.val hcontra
      simpa [X64R_RAX] using this
    split_ifs at h <;>
      (rw [Option.some.injEq] at h; subst h;
       exact ⟨fun j hj => by
          dsimp only
          rw [Function.update_apply, if_neg (hne j hj)],
        rfl, rfl, rfl⟩)
  case isFalse => exact absurd h (by simp)

/-- The flags routine touches only the flags register. -/
theorem flags_frame (c : X64Ctx) (d x y : ℕ) (b : Bool) (c2 : X64Ctx)
    (h : set_x64_cmp_flags c d x y b = some c2) :
    c2.gpr = c.gpr ∧ c2.xmm = c.xmm ∧ c2.rip = c.rip := by
  simp only [set_x64_cmp_flags] at h
  split_ifs at h <;>
    first
      | exact Option.noConfusion h
      | (rw [Option.some.injEq] at h; subst h; exact ⟨rfl, rfl, rfl⟩)

/-- The registers a decoded operation is allowed to modify (the claim's
list): the destination register for loads and exchange, the accumulator
for compare-exchange and the block-store source, and RCX/RSI/RDI for the
block operations. -/
def designated (op : X64Op) (reg : ℕ) (j : Fin 16) : Prop :=
  match op with
  | X64Op.LOAD | X64Op.LOAD_BE | X64Op.XCHG => j.val = reg
  | X64Op.CMPXCHG => j.val = 0
  | X64Op.MOVS => j.val = 1 ∨ j.val = 6 ∨ j.val = 7
  | X64Op.STOS => j.val = 0 ∨ j.val = 1 ∨ j.val = 7
  | _ => False

/-- Frame statement for a RAM-path outcome: when handled, every general
register outside the designated set and every vector register keeps its
pre-fault value. -/
def ramFrame (c : X64Ctx) (op : X64Op) (reg : ℕ) :
    Option (X64Ctx × (ℕ → ℕ)) → Prop
  | none => True
  | some r =>
    (∀ j : Fin 16, ¬ designated op reg j → r.1.gpr j = c.gpr j) ∧
    (∀ j : Fin 16, r.1.xmm j = c.xmm j)

/-- C10: a fault handled through the RAM/reservation path mutates, beyond
the instruction pointer, the flags register and memory, only the
registers the decoded operation designates; every other general-purpose
and vector register keeps its prior value. -/
theorem C10_ram_frame (c : X64Ctx) (code : List ℕ)
    (mem hostMem vmBase : ℕ → ℕ) (op : X64Op)
    (reg d_size i_size addr fuel : ℕ) :
    ramFrame c op reg (ram_mutate c code mem hostMem vmBase op reg d_size
      i_size addr fuel) := by
  cases e : ram_mutate c code mem hostMem vmBase op reg d_size i_size addr
      fuel with
  | none => exact trivial
  | some r =>
    obtain ⟨c2, mem2⟩ := r
    show (∀ j : Fin 16, ¬ designated op reg j → c2.gpr j = c.gpr j) ∧
      (∀ j : Fin 16, c2.xmm j = c.xmm j)
    cases op with
    | NONE =>
      simp only [ram_mutate] at e
      split at e <;> exact Option.noConfusion e
    | LOAD =>
      simp only [ram_mutate] at e
      split at e <;> exact Option.noConfusion e
    | LOAD_BE =>
      simp only [ram_mutate] at e
      split at e <;> exact Option.noConfusion e
    | LOAD_CMP =>
      simp only [ram_mutate] at e
      split at e <;> exact Option.noConfusion e
    | LOAD_TEST =>
      simp only [ram_mutate] at e
      split at e <;> exact Option.noConfusion e
    | STORE =>
      simp only [ram_mutate] at e
      repeat' split at e
      all_goals first
        | exact Option.noConfusion e
        | (rw [Option.some.injEq, Prod.mk.injEq] at e
           obtain ⟨ec, _⟩ := e
           subst ec
           exact ⟨fun j hj => rfl, fun j => rfl⟩)
    | STORE_BE =>
      simp only [ram_mutate] at e
      repeat' split at e
      all_goals first
        | exact Option.noConfusion e
        | (rw [Option.some.injEq, Prod.mk.injEq] at e
           obtain ⟨ec, _⟩ := e
           subst ec
           exact ⟨fun j hj => rfl, fun j => rfl⟩)
    | MOVS =>
      simp only [ram_mutate] at e
      repeat' split at e
      all_goals first
        | exact Option.noConfusion e
        | (rw [Option.some.injEq, Prod.mk.injEq] at e
           obtain ⟨ec, _⟩ := e
           subst ec
           refine ⟨fun j hj => ?_, fun j => rfl⟩
           simp only [designated] at hj
           push_neg at hj
           obtain ⟨h1, h6, h7⟩ := hj
           dsimp only
           rw [Function.update_apply,
             if_neg (Fin.ne_of_val_ne (by simpa using h1)),
             Function.update_apply,
             if_neg (Fin.ne_of_val_ne (by simpa using h7)),
             Function.update_apply,
             if_neg (Fin.ne_of_val_ne (by simpa using h6))])
    | STOS =>
      simp only [ram_mutate] at e
      repeat' split at e
      all_goals first
        | exact Option.noConfusion e
        | (rw [Option.some.injEq, Prod.mk.injEq] at e
           obtain ⟨ec, _⟩ := e
           subst ec
           refine ⟨fun j hj => ?_, fun j => rfl⟩
           simp only [designated] at hj
           push_neg at hj
           obtain ⟨h0, h1, h7⟩ := hj
           dsimp only
           rw [Function.update_apply,
             if_neg (Fin.ne_of_val_ne (by simpa using h1)),
             Function.update_apply,
             if_neg (Fin.ne_of_val_ne (by simpa using h7))])
    | XCHG =>
      by_cases hgi : d_size = 0 ∨ i_size = 0
      · simp only [ram_mutate, if_pos hgi] at e
        exact Option.noConfusion e
      · cases hg : get_x64_reg_value c code reg d_size i_size with
        | none =>
          simp only [ram_mutate, if_neg hgi, hg] at e
          exact Option.noConfusion e
        | some rv =>
          by_cases hd : d_size = 1 ∨ d_size = 2 ∨ d_size = 4 ∨ d_size = 8
          · simp only [ram_mutate, if_neg hgi, hg, if_pos hd] at e
            split at e
            · exact Option.noConfusion e
            · rename_i cP heqput
              rw [Option.some.injEq, Prod.mk.injEq] at e
              obtain ⟨ec, _⟩ := e
              subst ec
              obtain ⟨hgP, hxP, _, _⟩ := put_frame _ _ _ _ _ heqput
              refine ⟨fun j hj => ?_, fun j => congrFun hxP j⟩
              exact hgP j (by simpa [designated] using hj)
          · simp only [ram_mutate, if_neg hgi, hg, if_neg hd] at e
            exact Option.noConfusion e
    | CMPXCHG =>
      by_cases hgi : d_size = 0 ∨ i_size = 0
      · simp only [ram_mutate, if_pos hgi] at e
        exact Option.noConfusion e
      · cases hg1 : get_x64_reg_value c code reg d_size i_size with
        | none =>
          simp only [ram_mutate, if_neg hgi, hg1] at e
          exact Option.noConfusion e
        | some rv =>
          cases hg2 : get_x64_reg_value c code X64R_RAX d_size i_size with
          | none =>
            simp only [ram_mutate, if_neg hgi, hg1, hg2] at e
            exact Option.noConfusion e
          | some cv =>
            by_cases hd : d_size = 1 ∨ d_size = 2 ∨ d_size = 4 ∨ d_size = 8
            · simp only [ram_mutate, if_neg hgi, hg1, hg2, if_pos hd] at e
              split at e
              · exact Option.noConfusion e
              · rename_i cP heqput
                split at e
                · exact Option.noConfusion e
                · rename_i c3 heqflags
                  rw [Option.some.injEq, Prod.mk.injEq] at e
                  obtain ⟨ec, _⟩ := e
                  subst ec
                  obtain ⟨hgP, hxP, _, _⟩ := put_frame _ _ _ _ _ heqput
                  obtain ⟨hgF, hxF, _⟩ := flags_frame _ _ _ _ _ _ heqflags
                  refine ⟨fun j hj => ?_, fun j => ?_⟩
                  · exact (congrFun hgF j).trans
                      (hgP j (by simpa [designated, X64R_RAX] using hj))
                  · exact (congrFun hxF j).trans (congrFun hxP j)
            · simp only [ram_mutate, if_neg hgi, hg1, hg2, if_neg hd] at e
              exact Option.noConfusion e
    | AND =>
      by_cases hgi : d_size = 0 ∨ i_size = 0
      · simp only [ram_mutate, if_pos hgi] at e
        exact Option.noConfusion e
      · cases hg : get_x64_reg_value c code reg d_size i_size with
        | none =>
          simp only [ram_mutate, if_neg hgi, hg] at e
          exact Option.noConfusion e
        | some v =>
          by_cases hd : d_size = 1 ∨ d_size = 2 ∨ d_size = 4 ∨ d_size = 8
          · simp only [ram_mutate, if_neg hgi, hg, if_pos hd] at e
            split at e
            · exact Option.noConfusion e
            · rename_i c3 heqflags
              rw [Option.some.injEq, Prod.mk.injEq] at e
              obtain ⟨ec, _⟩ := e
              subst ec
              obtain ⟨hgF, hxF, _⟩ := flags_frame _ _ _ _ _ _ heqflags
              exact ⟨fun j hj => congrFun hgF j, fun j => congrFun hxF j⟩
          · simp only [ram_mutate, if_neg hgi, hg, if_neg hd] at e
            exact Option.noConfusion e
    | OR =>
      by_cases hgi : d_size = 0 ∨ i_size = 0
      · simp only [ram_mutate, if_pos hgi] at e
        exact Option.noConfusion e
      · cases hg : get_x64_reg_value c code reg d_size i_size with
        | none =>
          simp only [ram_mutate, if_neg hgi, hg] at e
          exact Option.noConfusion e
        | some v =>
          by_cases hd : d_size = 1 ∨ d_size = 2 ∨ d_size = 4 ∨ d_size = 8
          · simp only [ram_mutate, if_neg hgi, hg, if_pos hd] at e
            split at e
            · exact Option.noConfusion e
            · rename_i c3 heqflags
              rw [Option.some.injEq, Prod.mk.injEq] at e
              obtain ⟨ec, _⟩ := e
              subst ec
              obtain ⟨hgF, hxF, _⟩ := flags_frame _ _ _ _ _ _ heqflags
              exact ⟨fun j hj => congrFun hgF j, fun j => congrFun hxF j⟩
          · simp only [ram_mutate, if_neg hgi, hg, if_neg hd] at e
            exact Option.noConfusion e
    | XOR =>
      by_cases hgi : d_size = 0 ∨ i_size = 0
      · simp only [ram_mutate, if_pos hgi] at e
        exact Option.noConfusion e
      · cases hg : get_x64_reg_value c code reg d_size i_size with
        | none =>
          simp only [ram_mutate, if_neg hgi, hg] at e
          exact Option.noConfusion e
        | some v =>
          by_cases hd : d_size = 1 ∨ d_size = 2 ∨ d_size = 4 ∨ d_size = 8
          · simp only [ram_mutate, if_neg hgi, hg, if_pos hd] at e
            split at e
            · exact Option.noConfusion e
            · rename_i c3 heqflags
              rw [Option.some.injEq, Prod.mk.injEq] at e
              obtain ⟨ec, _⟩ := e
              subst ec
              obtain ⟨hgF, hxF, _⟩ := flags_frame _ _ _ _ _ _ heqflags
              exact ⟨fun j hj => congrFun hgF j, fun j => congrFun hxF j⟩
          · simp only [ram_mutate, if_neg hgi, hg, if_neg hd] at e
            exact Option.noConfusion e
    | INC =>
      by_cases hgi : d_size = 0 ∨ i_size = 0
      · simp only [ram_mutate, if_pos hgi] at e
        exact Option.noConfusion e
      · by_cases hd : d_size = 1 ∨ d_size = 2 ∨ d_size = 4 ∨ d_size = 8
        · simp only [ram_mutate, if_neg hgi, if_pos hd] at e
          split at e
          · exact Option.noConfusion e
          · rename_i c3 heqflags
            rw [Option.some.injEq, Prod.mk.injEq] at e
            obtain ⟨ec, _⟩ := e
            subst ec
            obtain ⟨hgF, hxF, _⟩ := flags_frame _ _ _ _ _ _ heqflags
            exact ⟨fun j hj => congrFun hgF j, fun j => congrFun hxF j⟩
        · simp only [ram_mutate, if_neg hgi, if_neg hd] at e
          exact Option.noConfusion e
    | DEC =>
      by_cases hgi : d_size = 0 ∨ i_size = 0
      · simp only [ram_mutate, if_pos hgi] at e
        exact Option.noConfusion e
      · by_cases hd : d_size = 1 ∨ d_size = 2 ∨ d_size = 4 ∨ d_size = 8
        · simp only [ram_mutate, if_neg hgi, if_pos hd] at e
          split at e
          · exact Option.noConfusion e
          · rename_i c3 heqflags
            rw [Option.some.injEq, Prod.mk.injEq] at e
            obtain ⟨ec, _⟩ := e
            subst ec
            obtain ⟨hgF, hxF, _⟩ := flags_frame _ _ _ _ _ _ heqflags
            exact ⟨fun j hj => congrFun hgF j, fun j => congrFun hxF j⟩
        · simp only [ram_mutate, if_neg hgi, if_neg hd] at e
          exact Option.noConfusion e
    | ADD =>
      by_cases hgi : d_size = 0 ∨ i_size = 0
      · simp only [ram_mutate, if_pos hgi] at e
        exact Option.noConfusion e
      · cases hg : get_x64_reg_value c code reg d_size i_size with
        | none =>
          simp only [ram_mutate, if_neg hgi, hg] at e
          exact Option.noConfusion e
        | some v =>
          by_cases hd : d_size = 1 ∨ d_size = 2 ∨ d_size = 4 ∨ d_size = 8
          · simp only [ram_mutate, if_neg hgi, hg, if_pos hd] at e
            split at e
            · exact Option.noConfusion e
            · rename_i c3 heqflags
              rw [Option.some.injEq, Prod.mk.injEq] at e
              obtain ⟨ec, _⟩ := e
              subst ec
              obtain ⟨hgF, hxF, _⟩ := flags_frame _ _ _ _ _ _ heqflags
              exact ⟨fun j hj => congrFun hgF j, fun j => congrFun hxF j⟩
          · simp only [ram_mutate, if_neg hgi, hg, if_neg hd] at e
            exact Option.noConfusion e
    | ADC =>
      by_cases hgi : d_size = 0 ∨ i_size = 0
      · simp only [ram_mutate, if_pos hgi] at e
        exact Option.noConfusion e
      · cases hg : get_x64_reg_value c code reg d_size i_size with
        | none =>
          simp only [ram_mutate, if_neg hgi, hg] at e
          exact Option.noConfusion e
        | some v =>
          by_cases hd : d_size = 1 ∨ d_size = 2 ∨ d_size = 4 ∨ d_size = 8
          · simp only [ram_mutate, if_neg hgi, hg, if_pos hd] at e
            split at e
            · exact Option.noConfusion e
            · rename_i c3 heqflags
              rw [Option.some.injEq, Prod.mk.injEq] at e
              obtain ⟨ec, _⟩ := e
              subst ec
              obtain ⟨hgF, hxF, _⟩ := flags_frame _ _ _ _ _ _ heqflags
              exact ⟨fun j hj => congrFun hgF j, fun j => congrFun hxF j⟩
          · simp only [ram_mutate, if_neg hgi, hg, if_neg hd] at e
            exact Option.noConfusion e
    | SUB =>
      by_cases hgi : d_size = 0 ∨ i_size = 0
      · simp only [ram_mutate, if_pos hgi] at e
        exact Option.noConfusion e
      · cases hg : get_x64_reg_value c code reg d_size i_size with
        | none =>
          simp only [ram_mutate, if_neg hgi, hg] at e
          exact Option.noConfusion e
        | some v =>
          by_cases hd : d_size = 1 ∨ d_size = 2 ∨ d_size = 4 ∨ d_size = 8
          · simp only [ram_mutate, if_neg hgi, hg, if_pos hd] at e
            split at e
            · exact Option.noConfusion e
            · rename_i c3 heqflags
              rw [Option.some.injEq, Prod.mk.injEq] at e
              obtain ⟨ec, _⟩ := e
              subst ec
              obtain ⟨hgF, hxF, _⟩ := flags_frame _ _ _ _ _ _ heqflags
              exact ⟨fun j hj => congrFun hgF j, fun j => congrFun hxF j⟩
          · simp only [ram_mutate, if_neg hgi, hg, if_neg hd] at e
            exact Option.noConfusion e
    | SBB =>
      by_cases hgi : d_size = 0 ∨ i_size = 0
      · simp only [ram_mutate, if_pos hgi] at e
        exact Option.noConfusion e
      · cases hg : get_x64_reg_value c code reg d_size i_size with
        | none =>
          simp only [ram_mutate, if_neg hgi, hg] at e
          exact Option.noConfusion e
        | some v =>
          by_cases hd : d_size = 1 ∨ d_size = 2 ∨ d_size = 4 ∨ d_size = 8
          · simp only [ram_mutate, if_neg hgi, hg, if_pos hd] at e
            split at e
            · exact Option.noConfusion e
            · rename_i c3 heqflags
              rw [Option.some.injEq, Prod.mk.injEq] at e
              obtain ⟨ec, _⟩ := e
              subst ec
              obtain ⟨hgF, hxF, _⟩ := flags_frame _ _ _ _ _ _ heqflags
              exact ⟨fun j hj => congrFun hgF j, fun j => congrFun hxF j⟩
          · simp only [ram_mutate, if_neg hgi, hg, if_neg hd] at e
            exact Option.noConfusion e

/-- Witness for C10: evaluation of the frame statement for the concrete
exchange fault `lock xchg [mem], ecx`. -/
theorem C10_ram_frame_witness :
    ramFrame cmpCtx X64Op.XCHG X64R_RCX
      (ram_mutate cmpCtx [0xf0, 0x87, 0x08] (fun _ => 7) (fun _ => 0)
        (fun a => a) X64Op.XCHG X64R_RCX 4 3 0x1000 50) :=
  C10_ram_frame cmpCtx [0xf0, 0x87, 0x08] (fun _ => 7) (fun _ => 0)
    (fun a => a) X64Op.XCHG X64R_RCX 4 3 0x1000 50

end ThreadCpp
